/-
  Verification of the evaluation-and-scoring pipeline of the stock screening
  repository: KDJ indicator computation, strategy verdicts (J-value and
  volume/price-pattern strategies), the strategy registry's flat and layered
  evaluation protocols, the scoring engine's aggregation, and ranking.

  Numeric modelling: Python floats are idealised as rationals; a value that
  becomes NaN or infinite in the Python/numpy computation (division by zero,
  arithmetic on NaN, a mean over an empty sample) is modelled as `none` in
  `Option ℚ`, and float comparisons against NaN, which are always false in
  Python, are modelled by Bool-valued comparison helpers that return `false`
  on `none`.  The scoring engine's aggregation, whose multiplicative policy
  takes real powers, is modelled over ℝ instead.
-/
import Mathlib

namespace StockSpec

/-! ## Option-valued rational arithmetic (NaN-aware float model) -/

/-- Addition propagating undefined (NaN) values. -/
def oAdd : Option ℚ → Option ℚ → Option ℚ
  | some a, some b => some (a + b)
  | _, _ => none

/-- Subtraction propagating undefined (NaN) values. -/
def oSub : Option ℚ → Option ℚ → Option ℚ
  | some a, some b => some (a - b)
  | _, _ => none

/-- Scaling by a rational constant, propagating undefined (NaN) values. -/
def oSMul (c : ℚ) : Option ℚ → Option ℚ :=
  Option.map (fun x => c * x)

/-- Division; undefined when either operand is undefined or the divisor is 0
(a zero divisor yields NaN or ±inf in numpy/pandas, neither a finite value). -/
def oDiv : Option ℚ → Option ℚ → Option ℚ
  | some a, some b => if b = 0 then none else some (a / b)
  | _, _ => none

/-- Float comparison `a < c`: false when `a` is NaN, as in Python. -/
def oLt (a : Option ℚ) (c : ℚ) : Bool :=
  match a with
  | some x => decide (x < c)
  | none => false

/-- Float comparison `a > c`: false when `a` is NaN, as in Python. -/
def oGt (a : Option ℚ) (c : ℚ) : Bool :=
  match a with
  | some x => decide (c < x)
  | none => false

/-- Float comparison `a >= c`: false when `a` is NaN, as in Python. -/
def oGe (a : Option ℚ) (c : ℚ) : Bool :=
  match a with
  | some x => decide (c ≤ x)
  | none => false

/-- Float comparison `a <= c`: false when `a` is NaN, as in Python. -/
def oLe (a : Option ℚ) (c : ℚ) : Bool :=
  match a with
  | some x => decide (x ≤ c)
  | none => false

/-- pandas `Series.mean()` with default `skipna=True`: the mean of the defined
entries, NaN when no entry is defined. -/
def optMean (xs : List (Option ℚ)) : Option ℚ :=
  let vs := xs.filterMap id
  if vs.length = 0 then none else some (vs.sum / vs.length)

/-! ## KDJ indicator (`DataDownloader._calculate_kdj`, window n = 9)

One OHLC bar; the downloader's KDJ computation reads `trade_date`, `close`,
`high` and `low` (the other columns are irrelevant to it). -/

structure Bar where
  trade_date : ℕ
  close : ℚ
  high : ℚ
  low : ℚ
  deriving DecidableEq, Repr

instance : Inhabited Bar := ⟨⟨0, 0, 0, 0⟩⟩

/-- Model of `np.min` over a list (the slices below are always non-empty). -/
def listMin : List ℚ → ℚ
  | [] => 0
  | x :: xs => xs.foldl min x

/-- Model of `np.max` over a list (the slices below are always non-empty). -/
def listMax : List ℚ → ℚ
  | [] => 0
  | x :: xs => xs.foldl max x

/-- The slice `prices[max(0, i - 9 + 1) : i + 1]` of the rolling window. -/
def windowSlice (f : Bar → ℚ) (bars : List Bar) (i : ℕ) : List ℚ :=
  ((bars.take (i + 1)).drop (i + 1 - 9)).map f

/-- Model of `low_min = np.min(low_prices[max(0, i - n + 1) : i + 1])`. -/
def lowMin (bars : List Bar) (i : ℕ) : ℚ :=
  listMin (windowSlice Bar.low bars i)

/-- Model of `high_max = np.max(high_prices[max(0, i - n + 1) : i + 1])`. -/
def highMax (bars : List Bar) (i : ℕ) : ℚ :=
  listMax (windowSlice Bar.high bars i)

/-- Model of `rsv = (close[i] - low_min) / (high_max - low_min) * 100`; the code has no
guard, so a flat window (zero denominator) produces NaN/inf, modelled `none`. -/
def rsvAt (bars : List Bar) (i : ℕ) : Option ℚ :=
  if highMax bars i - lowMin bars i = 0 then none
  else some (((bars.getD i default).close - lowMin bars i)
      / (highMax bars i - lowMin bars i) * 100)

/-- One iteration of the downloader's KDJ loop:
`k = 2/3*k_prev + 1/3*rsv`, `d = 2/3*d_prev + 1/3*k`, `j = 3*k - 2*d`. -/
def kdjStep (bars : List Bar) (i : ℕ) (kp dp : Option ℚ) :
    Option ℚ × Option ℚ × Option ℚ :=
  let rsv := rsvAt bars i
  let k := oAdd (oSMul (2/3) kp) (oSMul (1/3) rsv)
  let d := oAdd (oSMul (2/3) dp) (oSMul (1/3) k)
  let j := oSub (oSMul 3 k) (oSMul 2 d)
  (k, d, j)

/-- The loop over bar indices, carrying `(k_previous, d_previous)`. -/
def kdjAux (bars : List Bar) (kp dp : Option ℚ) : List ℕ → List (Option ℚ × Option ℚ × Option ℚ)
  | [] => []
  | i :: is =>
    let t := kdjStep bars i kp dp
    t :: kdjAux bars t.1 t.2.1 is

/-- Model of `data.sort_values('trade_date', ascending=True)` (dates are unique per
security, so any sort by date gives this result). -/
def sortBarsByDate (bars : List Bar) : List Bar :=
  List.insertionSort (fun a b => a.trade_date ≤ b.trade_date) bars

/-- Model of `_calculate_kdj`: sort ascending by `trade_date`, then run the recursion
seeded with `k_previous = d_previous = 50`, returning each bar paired with its
`(K, D, J)` columns. -/
def calculateKdj (bars : List Bar) : List (Bar × (Option ℚ × Option ℚ × Option ℚ)) :=
  (sortBarsByDate bars).zip
    (kdjAux (sortBarsByDate bars) (some 50) (some 50)
      (List.range (sortBarsByDate bars).length))

/-! ### KDJ specification-side recursion (the claim's formulas) -/

/-- The claim's rsv formula (well-defined only on non-flat windows). -/
def rsvSpec (bars : List Bar) (i : ℕ) : ℚ :=
  ((bars.getD i default).close - lowMin bars i) / (highMax bars i - lowMin bars i) * 100

/-- The claim's K recursion with seed K₀ = 50. -/
def kSpec (bars : List Bar) : ℕ → ℚ
  | 0 => 2/3 * 50 + 1/3 * rsvSpec bars 0
  | i + 1 => 2/3 * kSpec bars i + 1/3 * rsvSpec bars (i + 1)

/-- The claim's D recursion with seed D₀ = 50. -/
def dSpec (bars : List Bar) : ℕ → ℚ
  | 0 => 2/3 * 50 + 1/3 * kSpec bars 0
  | i + 1 => 2/3 * dSpec bars i + 1/3 * kSpec bars (i + 1)

/-- The claim's J value. -/
def jSpec (bars : List Bar) (i : ℕ) : ℚ :=
  3 * kSpec bars i - 2 * dSpec bars i

/-- The previous K value seen by the loop at index `i` (seed 50 at index 0). -/
def kPrevSpec (bars : List Bar) : ℕ → ℚ
  | 0 => 50
  | i + 1 => kSpec bars i

/-- The previous D value seen by the loop at index `i` (seed 50 at index 0). -/
def dPrevSpec (bars : List Bar) : ℕ → ℚ
  | 0 => 50
  | i + 1 => dSpec bars i

/-- Concrete two-bar ascending series with non-flat windows, used as the
witness input for the KDJ recursion theorem. -/
def kdjWitBars : List Bar := [⟨1, 5, 10, 0⟩, ⟨2, 6, 10, 0⟩]

/-- A single bar whose rolling window is flat (`high = low = close`). -/
def flatBar : Bar := ⟨1, 10, 10, 10⟩

/-! ## StrategyResult (`base_strategy.StrategyResult`)

The heterogeneous `details` dict is not modelled; no claim depends on it. -/

structure StrategyResult where
  stock_code : String
  stock_name : String
  strategy_name : String
  is_qualified : Bool
  score : ℚ
  confidence : ℚ
  reason : String
  current_price : ℚ := 0
  trade_date : String := ""
  deriving DecidableEq, Repr

def scoreRangeMsg : String := "score 必须在 0-100 之间"

def confidenceRangeMsg : String := "confidence 必须在 0-1 之间"

/-- Model of `StrategyResult.__post_init__`: construction validates `0 <= score <= 100`
and `0 <= confidence <= 1`, raising `ValueError` (modelled `Except.error`)
otherwise; nothing is clamped. -/
def StrategyResult.make (stock_code stock_name strategy_name : String)
    (is_qualified : Bool) (score confidence : ℚ) (reason : String)
    (current_price : ℚ) (trade_date : String) : Except String StrategyResult :=
  if 0 ≤ score ∧ score ≤ 100 then
    if 0 ≤ confidence ∧ confidence ≤ 1 then
      Except.ok
        { stock_code := stock_code, stock_name := stock_name,
          strategy_name := strategy_name, is_qualified := is_qualified,
          score := score, confidence := confidence, reason := reason,
          current_price := current_price, trade_date := trade_date }
    else Except.error confidenceRangeMsg
  else Except.error scoreRangeMsg

/-- Model of `BaseStrategy.create_failed_result`: a disqualified zero-score,
zero-confidence verdict carrying the given reason. -/
def mkFailedResult (strategy_name code nm reason : String) : StrategyResult :=
  { stock_code := code, stock_name := nm, strategy_name := strategy_name,
    is_qualified := false, score := 0, confidence := 0, reason := reason }

/-! ## J-value strategy (`JValueStrategy.analyze`)

A prepared data row as the strategy reads it: `trade_date`, `close`, `vol`
(required columns) and the `J` indicator column, `none` modelling a missing
or NaN J value.  The numeric formatting inside the human-readable reason
strings is elided (fixed strings instead); no claim depends on it. -/

structure JRow where
  trade_date : ℕ
  close : ℚ
  vol : ℚ
  J : Option ℚ
  deriving DecidableEq, Repr

/-- Model of `stock_data.sort_values('trade_date', ascending=True)` for J-rows. -/
def sortJRows (rows : List JRow) : List JRow :=
  List.insertionSort (fun a b => a.trade_date ≤ b.trade_date) rows

/-- Model of `BaseStrategy.validate_data`: non-empty, at least `min_length` rows, and
the required columns present (guaranteed by the row type here). -/
def validateJData (rows : List JRow) (min_length : ℕ) : Bool :=
  if rows.isEmpty then false else decide (min_length ≤ rows.length)

def msgInsufficientJ : String := "数据不足或缺少必要列"

def msgNoLatest : String := "无法获取最新数据"

def msgNoJ : String := "缺少J值数据"

def jStrategyDefaultName : String := "J值筛选策略"

def jReasonQualified : String := "J值小于阈值，处于超卖区域"

def jReasonNotQualified : String := "J值大于阈值，不在超卖区域"

/-- Model of `JValueStrategy.analyze`: validate, take the latest row by date, require a
J value, then: qualifies iff `J < max_j_value`; score 100 for `J <= 0`, 0 for
`J >= max_j_value`, otherwise `100 - J/max_j_value*90`; confidence 0.9 / 0.7 /
0.5 at the `0.5·max` and `0.8·max` breakpoints. -/
def jValueAnalyze (max_j_value : ℚ) (code nm : String) (rows : List JRow) :
    StrategyResult :=
  if validateJData rows 5 then
    match (sortJRows rows).getLast? with
    | none => mkFailedResult jStrategyDefaultName code nm msgNoLatest
    | some latest =>
      match latest.J with
      | none => mkFailedResult jStrategyDefaultName code nm msgNoJ
      | some j =>
        let is_qualified := decide (j < max_j_value)
        let score : ℚ :=
          if j ≤ 0 then 100
          else if max_j_value ≤ j then 0
          else 100 - j / max_j_value * 90
        let confidence : ℚ :=
          if j ≤ max_j_value * (1/2) then 9/10
          else if j ≤ max_j_value * (8/10) then 7/10
          else 1/2
        { stock_code := code, stock_name := nm,
          strategy_name := jStrategyDefaultName,
          is_qualified := is_qualified, score := score, confidence := confidence,
          reason := if is_qualified then jReasonQualified else jReasonNotQualified,
          current_price := latest.close, trade_date := toString latest.trade_date }
  else mkFailedResult jStrategyDefaultName code nm msgInsufficientJ

/-! ## Strategy registry (`strategy_registry.StrategyRegistry`)

A strategy instance: the base-class attributes plus its `analyze` method over
prepared data of type `α`; an exception raised by `analyze` is modelled as
`Except.error` with the error text. -/

structure Strategy (α : Type) where
  name : String
  weight : ℚ
  enabled : Bool
  is_filter_strategy : Bool
  threshold_score : ℚ
  analyze : String → String → α → Except String StrategyResult

/-- Model of `BaseStrategy.passes_filter`: non-filter strategies always pass; a filter
strategy passes iff `is_qualified` and `score >= threshold_score`. -/
def passesFilter {α : Type} (s : Strategy α) (r : StrategyResult) : Bool :=
  if s.is_filter_strategy then r.is_qualified && decide (s.threshold_score ≤ r.score)
  else true

/-- Model of `create_failed_result` called on a strategy instance. -/
def createFailedResult {α : Type} (s : Strategy α) (code nm reason : String) :
    StrategyResult :=
  mkFailedResult s.name code nm reason

def errText : String := "分析出错: "

/-- The verdict the registry stores for a strategy: its analysis result, or the
caught-exception failure verdict with the error text in the reason. -/
def verdictOf {α : Type} (s : Strategy α) (code nm : String) (d : α) : StrategyResult :=
  match s.analyze code nm d with
  | Except.ok r => r
  | Except.error e => createFailedResult s code nm (errText ++ e)

/-- Python-dict assignment `results[name] = r`: replace in place, else append. -/
def dictUpsert (k : String) (v : StrategyResult) :
    List (String × StrategyResult) → List (String × StrategyResult)
  | [] => [(k, v)]
  | p :: ps => if p.1 = k then (k, v) :: ps else p :: dictUpsert k v ps

/-- Python-dict lookup. -/
def dictGet (k : String) : List (String × StrategyResult) → Option StrategyResult
  | [] => none
  | p :: ps => if p.1 = k then some p.2 else dictGet k ps

/-- The flat-mode loop of `StrategyRegistry.analyze_stock`, which catches
per-strategy exceptions and stores a failure verdict instead. -/
def analyzeStockAux {α : Type} (code nm : String) (d : α)
    (acc : List (String × StrategyResult)) :
    List (Strategy α) → List (String × StrategyResult)
  | [] => acc
  | s :: ss =>
    analyzeStockAux code nm d (dictUpsert s.name (verdictOf s code nm d) acc) ss

/-- Model of `StrategyRegistry.analyze_stock` (flat mode). -/
def analyzeStock {α : Type} (code nm : String) (d : α)
    (strategies : List (Strategy α)) : List (String × StrategyResult) :=
  analyzeStockAux code nm d [] strategies

/-- Phase one of `analyze_stock_with_filtering`: run the filter strategies in
order; stop at the first one that fails `passes_filter` or raises (the caught
error also counts as a failed filter).  Besides the result map, the embedding
returns the trace of strategies whose `analyze` was invoked, and whether all
filters passed. -/
def runFiltersAux {α : Type} (code nm : String) (d : α)
    (acc : List (String × StrategyResult)) (inv : List String) :
    List (Strategy α) → List (String × StrategyResult) × List String × Bool
  | [] => (acc, inv, true)
  | s :: ss =>
    match s.analyze code nm d with
    | Except.ok r =>
      if passesFilter s r then
        runFiltersAux code nm d (dictUpsert s.name r acc) (inv ++ [s.name]) ss
      else (dictUpsert s.name r acc, inv ++ [s.name], false)
    | Except.error e =>
      (dictUpsert s.name (createFailedResult s code nm (errText ++ e)) acc,
        inv ++ [s.name], false)

/-- Phase two: run the scoring strategies, appending their verdicts. -/
def runScoringAux {α : Type} (code nm : String) (d : α)
    (acc : List (String × StrategyResult)) (inv : List String) :
    List (Strategy α) → List (String × StrategyResult) × List String
  | [] => (acc, inv)
  | s :: ss =>
    runScoringAux code nm d (dictUpsert s.name (verdictOf s code nm d) acc)
      (inv ++ [s.name]) ss

/-- Model of `StrategyRegistry.analyze_stock_with_filtering`, instrumented with the
invocation trace: scoring strategies run only if every filter passed. -/
def analyzeStockWithFilteringT {α : Type} (code nm : String) (d : α)
    (filter_strategies scoring_strategies : List (Strategy α)) :
    List (String × StrategyResult) × List String :=
  match runFiltersAux code nm d [] [] filter_strategies with
  | (acc, inv, true) => runScoringAux code nm d acc inv scoring_strategies
  | (acc, inv, false) => (acc, inv)

/-- Model of `get_filter_strategies`: enabled filter strategies, in registration order. -/
def getFilterStrategies {α : Type} (reg : List (Strategy α)) : List (Strategy α) :=
  reg.filter (fun s => s.enabled && s.is_filter_strategy)

/-- Model of `get_scoring_strategies`: enabled non-filter strategies. -/
def getScoringStrategies {α : Type} (reg : List (Strategy α)) : List (Strategy α) :=
  reg.filter (fun s => s.enabled && !s.is_filter_strategy)

/-- Model of `analyze_stock_with_filtering` on a registry (result map only). -/
def analyzeStockWithFiltering {α : Type} (code nm : String) (d : α)
    (reg : List (Strategy α)) : List (String × StrategyResult) :=
  (analyzeStockWithFilteringT code nm d (getFilterStrategies reg)
    (getScoringStrategies reg)).1

/-- Model of `JValueStrategy(max_j_value, is_filter_strategy=True)` with the default
`threshold_score = 100.0`, as a registry strategy over prepared J-rows. -/
def jValueFilterStrategy (max_j_value : ℚ) : Strategy (List JRow) :=
  { name := jStrategyDefaultName, weight := 1, enabled := true,
    is_filter_strategy := true, threshold_score := 100,
    analyze := fun code nm rows => Except.ok (jValueAnalyze max_j_value code nm rows) }

/-! ### Concrete strategies for the registry witnesses -/

def nmA : String := "sh600000"

def nmB : String := "样例股票"

def nmF1 : String := "filterA"

def nmF2 : String := "filterB"

def nmS1 : String := "scoringA"

def nmE1 : String := "errStrat"

def emptyStr : String := ""

def msgBoom : String := "boom"

def passVerdict : StrategyResult :=
  { stock_code := nmA, stock_name := nmB, strategy_name := nmF1,
    is_qualified := true, score := 80, confidence := 1/2, reason := emptyStr }

def failVerdict : StrategyResult :=
  { stock_code := nmA, stock_name := nmB, strategy_name := nmF2,
    is_qualified := false, score := 0, confidence := 1/10, reason := emptyStr }

def filterPassStrategy : Strategy Unit :=
  { name := nmF1, weight := 1, enabled := true, is_filter_strategy := true,
    threshold_score := 50, analyze := fun _ _ _ => Except.ok passVerdict }

def filterFailStrategy : Strategy Unit :=
  { name := nmF2, weight := 1, enabled := true, is_filter_strategy := true,
    threshold_score := 50, analyze := fun _ _ _ => Except.ok failVerdict }

def scoringStrategy : Strategy Unit :=
  { name := nmS1, weight := 1, enabled := true, is_filter_strategy := false,
    threshold_score := 100, analyze := fun _ _ _ => Except.ok passVerdict }

def errorStrategy : Strategy Unit :=
  { name := nmE1, weight := 1, enabled := true, is_filter_strategy := true,
    threshold_score := 100, analyze := fun _ _ _ => Except.error msgBoom }

/-- Five ascending rows whose latest bar carries `J = -5`. -/
def jWitRows : List JRow :=
  [{ trade_date := 1, close := 10, vol := 100, J := some (-5) },
   { trade_date := 2, close := 10, vol := 100, J := some (-5) },
   { trade_date := 3, close := 10, vol := 100, J := some (-5) },
   { trade_date := 4, close := 10, vol := 100, J := some (-5) },
   { trade_date := 5, close := 10, vol := 100, J := some (-5) }]

def jWitLatest : JRow := { trade_date := 5, close := 10, vol := 100, J := some (-5) }

/-! ## Scoring engine aggregation (`ScoringEngine._calculate_scores`)

Modelled over ℝ because the multiplicative policy takes real powers of
rationals.  Scores and weights arrive as insertion-ordered dicts
(association lists). -/

/-- Python `dict.get(name, default)`. -/
noncomputable def lookupD (l : List (String × ℝ)) (k : String) (dflt : ℝ) : ℝ :=
  match l.find? (fun p => decide (p.1 = k)) with
  | some p => p.2
  | none => dflt

open Classical in
/-- Python `weights.index(max(weights))`: the first index carrying the
maximal weight. -/
noncomputable def idxOfMax (ws : List ℝ) : ℕ :=
  ws.findIdx (fun w => decide (w = ws.foldl max (ws.headD 0)))

def weightedAverageName : String := "weighted_average"

def multiplicativeName : String := "multiplicative"

def maxScoreName : String := "max_score"

open Classical in
/-- Model of `ScoringEngine._calculate_scores`: the simple mean is always computed;
the weighted score depends on the selected policy, with the
`weighted_average` policy falling back to the simple mean on non-positive
total weight. -/
noncomputable def calculateScores (scoring_method : String)
    (strategy_scores strategy_weights : List (String × ℝ)) : ℝ × ℝ :=
  match strategy_scores with
  | [] => (0, 0)
  | _ :: _ =>
    let scores := strategy_scores.map Prod.snd
    let weights := strategy_scores.map (fun p => lookupD strategy_weights p.1 1)
    let total_score := scores.sum / scores.length
    let weighted_score :=
      if scoring_method = weightedAverageName then
        if 0 < weights.sum then
          (List.zipWith (fun s w => s * w) scores weights).sum / weights.sum
        else total_score
      else if scoring_method = multiplicativeName then
        if ∀ s ∈ scores, 0 < s then
          (((scores.zip weights).foldl (fun acc p => acc * (p.1 / 100) ^ p.2) 1) ^
            ((1:ℝ) / weights.sum)) * 100
        else 0
      else if scoring_method = maxScoreName then
        scores.getD (idxOfMax weights) 0
      else total_score
    (total_score, weighted_score)

def scores8060 : List (String × ℝ) := [(nmF1, 80), (nmS1, 60)]

def weights11 : List (String × ℝ) := [(nmF1, 1), (nmS1, 1)]

/-! ## Ranking (`ScoringEngine.rank_stocks`)

`StockScore` as the ranking reads it: the scores, the derived list of
qualified strategy names (whose length is the `qualified_count` property) and
the overall confidence.  The per-strategy result map is irrelevant to
ranking and not modelled here. -/

structure StockScore where
  stock_code : String
  stock_name : String
  total_score : ℚ
  weighted_score : ℚ
  strategy_scores : List (String × ℚ) := []
  strategy_weights : List (String × ℚ) := []
  qualified_strategies : List String := []
  confidence : ℚ := 0
  current_price : ℚ := 0
  trade_date : String := ""
  deriving DecidableEq, Repr

/-- The `qualified_count` property. -/
def qualifiedCount (s : StockScore) : ℕ := s.qualified_strategies.length

structure RankedStock where
  rank : ℕ
  stock_score : StockScore
  deriving DecidableEq, Repr

/-- The engine state used by `rank_stocks`; `min_qualified_strategies`
defaults to 1 in `__init__`. -/
structure ScoringEngine where
  scoring_method : String
  min_qualified_strategies : ℕ

def defaultEngine : ScoringEngine :=
  { scoring_method := weightedAverageName, min_qualified_strategies := 1 }

def sbTotalScore : String := "total_score"

def sbWeightedScore : String := "weighted_score"

def sbQualifiedCount : String := "qualified_count"

def sbConfidence : String := "confidence"

/-- The filtering loop of `rank_stocks`: `min_score` is checked only for the
`total_score` and `weighted_score` sort keys, and the qualified-strategy
count always. -/
def survives (sort_by : String) (min_score : ℚ) (minQ : ℕ) (s : StockScore) : Bool :=
  if sort_by = sbTotalScore ∧ s.total_score < min_score then false
  else if sort_by = sbWeightedScore ∧ s.weighted_score < min_score then false
  else if qualifiedCount s < minQ then false
  else true

/-- Lexicographic order on sort keys (Python tuple comparison; scalar keys
are modelled with a constant second component). -/
def pairLe (p q : ℚ × ℚ) : Prop :=
  p.1 < q.1 ∨ (p.1 = q.1 ∧ p.2 ≤ q.2)

instance (p q : ℚ × ℚ) : Decidable (pairLe p q) :=
  inferInstanceAs (Decidable (p.1 < q.1 ∨ (p.1 = q.1 ∧ p.2 ≤ q.2)))

/-- Stable descending insertion: place `x` before the first element whose key
does not exceed `x`'s, so that earlier input order wins on equal keys — the
behaviour of Python's stable `list.sort(key=..., reverse=True)`. -/
def insertByKey (key : StockScore → ℚ × ℚ) (x : StockScore) :
    List StockScore → List StockScore
  | [] => [x]
  | y :: ys =>
    if pairLe (key y) (key x) then x :: y :: ys else y :: insertByKey key x ys

/-- Stable descending sort by key. -/
def sortByKeyDesc (key : StockScore → ℚ × ℚ) (l : List StockScore) :
    List StockScore :=
  l.foldr (insertByKey key) []

/-- Model of `enumerate(filtered_stocks, 1)`: dense 1-based ranks in list order. -/
def assignRanks : ℕ → List StockScore → List RankedStock
  | _, [] => []
  | i, s :: ss => ⟨i, s⟩ :: assignRanks (i + 1) ss

/-- Model of `ScoringEngine.rank_stocks`. -/
def rankStocks (e : ScoringEngine) (stock_scores : List StockScore)
    (sort_by : String) (min_score : ℚ) (min_qualified : Option ℕ) :
    List RankedStock :=
  let minQ := min_qualified.getD e.min_qualified_strategies
  let filtered := stock_scores.filter (survives sort_by min_score minQ)
  let sorted :=
    if sort_by = sbTotalScore then
      sortByKeyDesc (fun s => (s.total_score, 0)) filtered
    else if sort_by = sbWeightedScore then
      sortByKeyDesc (fun s => (s.weighted_score, 0)) filtered
    else if sort_by = sbQualifiedCount then
      sortByKeyDesc (fun s => ((qualifiedCount s : ℚ), s.weighted_score)) filtered
    else if sort_by = sbConfidence then
      sortByKeyDesc (fun s => (s.confidence, 0)) filtered
    else sortByKeyDesc (fun s => (s.weighted_score, 0)) filtered
  assignRanks 1 sorted

/-- The amended filter predicate, from the claim's words: the `min_score`
threshold applies only under the `total_score` and `weighted_score` sort
keys; the qualified-count minimum always applies. -/
def keepSpec (sort_by : String) (min_score : ℚ) (minQ : ℕ) (s : StockScore) : Bool :=
  (if sort_by = sbTotalScore then decide (min_score ≤ s.total_score)
   else if sort_by = sbWeightedScore then decide (min_score ≤ s.weighted_score)
   else true)
  && decide (minQ ≤ qualifiedCount s)

/-- The claim's sort key per sort name (`qualified_count` sorts by the count
and then the weighted score). -/
def sortKeySpec (sort_by : String) (s : StockScore) : ℚ × ℚ :=
  if sort_by = sbTotalScore then (s.total_score, 0)
  else if sort_by = sbWeightedScore then (s.weighted_score, 0)
  else if sort_by = sbQualifiedCount then ((qualifiedCount s : ℚ), s.weighted_score)
  else if sort_by = sbConfidence then (s.confidence, 0)
  else (s.weighted_score, 0)

/-- A stock whose scores and confidence all lie below a `min_score` of 50,
with one qualified strategy. -/
def cxScore : StockScore :=
  { stock_code := nmA, stock_name := nmB, total_score := 10, weighted_score := 10,
    qualified_strategies := [nmF1], confidence := 1 }

/-! ## Volume/price-pattern strategy (`VolumePatternStrategy`)

A data row as this strategy reads it (`trade_date`, `close`, `vol`).  NaN
values arising from pandas (`pct_change` at the first row, the 5-day rolling
volume mean before its window fills, means over all-NaN samples) are `none`;
pandas comparisons against NaN are false, as modelled by the `o*` helpers. -/

structure VRow where
  trade_date : ℕ
  close : ℚ
  vol : ℚ
  deriving DecidableEq, Repr

instance : Inhabited VRow := ⟨⟨0, 0, 0⟩⟩

/-- Model of `stock_data.sort_values('trade_date', ascending=True)` for V-rows. -/
def sortVRows (rows : List VRow) : List VRow :=
  List.insertionSort (fun a b => a.trade_date ≤ b.trade_date) rows

/-- pandas `tail(n)`: the last `n` elements. -/
def lastN {α : Type} (n : ℕ) (l : List α) : List α :=
  l.drop (l.length - n)

/-- Model of `Series.pct_change()` walked with the previous close as state; NaN at the
first row, and on a zero previous close (pandas yields ±inf there). -/
def pcAux : Option ℚ → List ℚ → List (Option ℚ)
  | _, [] => []
  | prev, c :: cs =>
    (match prev with
     | none => none
     | some p => if p = 0 then none else some ((c - p) / p)) :: pcAux (some c) cs

def pctChanges (closes : List ℚ) : List (Option ℚ) :=
  pcAux none closes

/-- Model of `vol.rolling(window=5).mean()` walked with the history as state: NaN until
the window fills, then the mean of the last 5 values. -/
def rollMean5Aux (hist : List ℚ) : List ℚ → List (Option ℚ)
  | [] => []
  | v :: vs =>
    (if (hist ++ [v]).length < 5 then none
     else some ((lastN 5 (hist ++ [v])).sum / 5)) :: rollMean5Aux (hist ++ [v]) vs

def rollMean5 (vols : List ℚ) : List (Option ℚ) :=
  rollMean5Aux [] vols

/-- Model of `volume_ratio = vol / volume_ma`. -/
def volRatios (vols : List ℚ) : List (Option ℚ) :=
  List.zipWith
    (fun v m =>
      match m with
      | none => none
      | some mv => if mv = 0 then none else some (v / mv))
    vols (rollMean5 vols)

/-- The analysis window (`data.tail(days_to_analyze)`) with each day's
`(price_change, volume_ratio)`. -/
def vpAnalysisRows (days : ℕ) (data : List VRow) : List (Option ℚ × Option ℚ) :=
  List.zip (pctChanges ((lastN days data).map VRow.close))
    (volRatios ((lastN days data).map VRow.vol))

/-- Model of `up_days`: rows with `price_change > min_price_change`. -/
def vpUps (days : ℕ) (pMin : ℚ) (data : List VRow) : List (Option ℚ × Option ℚ) :=
  (vpAnalysisRows days data).filter (fun p => oGt p.1 pMin)

/-- Model of `down_days`: rows with `price_change < -min_price_change`. -/
def vpDowns (days : ℕ) (pMin : ℚ) (data : List VRow) : List (Option ℚ × Option ℚ) :=
  (vpAnalysisRows days data).filter (fun p => oLt p.1 (-pMin))

/-- Model of `up_days['volume_ratio'].mean()` (skipna). -/
def vpAvgUp (days : ℕ) (pMin : ℚ) (data : List VRow) : Option ℚ :=
  optMean ((vpUps days pMin data).map Prod.snd)

/-- Model of `down_days['volume_ratio'].mean()` (skipna). -/
def vpAvgDown (days : ℕ) (pMin : ℚ) (data : List VRow) : Option ℚ :=
  optMean ((vpDowns days pMin data).map Prod.snd)

/-- Model of `volume_contrast = avg_up / avg_down if avg_down != 0 else 0` — note a NaN
`avg_down` is `!= 0` in Python, so the division branch is taken and the
contrast is NaN. -/
def vpContrast (days : ℕ) (pMin : ℚ) (data : List VRow) : Option ℚ :=
  if vpAvgDown days pMin data = some 0 then some 0
  else oDiv (vpAvgUp days pMin data) (vpAvgDown days pMin data)

/-- Model of `(recent_5days.close.iloc[-1] / iloc[0] - 1) * 100` over the last 5 rows
of the analysis window. -/
def vpRecentReturn (days : ℕ) (data : List VRow) : Option ℚ :=
  match (lastN 5 (lastN days data)).head?, (lastN 5 (lastN days data)).getLast? with
  | some f, some l => if f.close = 0 then none else some ((l.close / f.close - 1) * 100)
  | _, _ => none

/-- The dict `_analyze_volume_price_pattern` returns (the three
`condition_scores` booleans are separate fields).  `is_qualified` mirrors the
code exactly: `conditions_met` starts true and is cleared only by the strict
comparisons `contrast < contrastMin`, `avg_up < 1`, `avg_down > 1` — each of
which is false on NaN. -/
structure VPRec where
  is_qualified : Bool
  up_days_count : ℕ
  down_days_count : ℕ
  avg_vol_ratio_up : Option ℚ
  avg_vol_ratio_down : Option ℚ
  volume_contrast : Option ℚ
  recent_return_5d : Option ℚ
  cond_contrast : Bool
  cond_up : Bool
  cond_down : Bool
  deriving DecidableEq, Repr

/-- Model of `_analyze_volume_price_pattern`: `None` when either sample has fewer than
3 days. -/
def analyzeVPP (days : ℕ) (pMin cMin : ℚ) (data : List VRow) : Option VPRec :=
  if (vpUps days pMin data).length < 3 ∨ (vpDowns days pMin data).length < 3 then
    none
  else
    some
      { is_qualified := !(oLt (vpContrast days pMin data) cMin)
          && (!(oLt (vpAvgUp days pMin data) 1)
            && !(oGt (vpAvgDown days pMin data) 1)),
        up_days_count := (vpUps days pMin data).length,
        down_days_count := (vpDowns days pMin data).length,
        avg_vol_ratio_up := vpAvgUp days pMin data,
        avg_vol_ratio_down := vpAvgDown days pMin data,
        volume_contrast := vpContrast days pMin data,
        recent_return_5d := vpRecentReturn days data,
        cond_contrast := oGe (vpContrast days pMin data) cMin,
        cond_up := oGe (vpAvgUp days pMin data) 1,
        cond_down := oLe (vpAvgDown days pMin data) 1 }

/-- Contrast sub-score (max 40): tiers at ≥2.0 / ≥1.5 / ≥contrastMin. -/
def tierContrast (contrast : Option ℚ) (cMin : ℚ) : ℚ :=
  if oGe contrast 2 then 40
  else if oGe contrast (3/2) then 30
  else if oGe contrast cMin then 20
  else 0

/-- Up-day ratio sub-score (max 30): tiers at ≥1.5 / ≥1.2 / ≥1.0. -/
def tierUp (u : Option ℚ) : ℚ :=
  if oGe u (3/2) then 30
  else if oGe u (6/5) then 20
  else if oGe u 1 then 10
  else 0

/-- Down-day ratio sub-score (max 20): tiers at ≤0.8 / ≤0.9 / ≤1.0. -/
def tierDown (d : Option ℚ) : ℚ :=
  if oLe d (4/5) then 20
  else if oLe d (9/10) then 15
  else if oLe d 1 then 10
  else 0

/-- Recent 5-day return sub-score (max 10): `min(10, return%)` when
positive. -/
def tierRecent (rr : Option ℚ) : ℚ :=
  match rr with
  | some v => if 0 < v then min 10 v else 0
  | none => 0

/-- Model of `VolumePatternStrategy._calculate_score`: 0 if disqualified, else the four
tiered sub-scores summed and capped at 100. -/
def vpScore (cMin : ℚ) (r : VPRec) : ℚ :=
  if r.is_qualified = false then 0
  else
    min 100 (tierContrast r.volume_contrast cMin + tierUp r.avg_vol_ratio_up
      + tierDown r.avg_vol_ratio_down + tierRecent r.recent_return_5d)

/-- Model of `VolumePatternStrategy._calculate_confidence`. -/
def vpConfidence (r : VPRec) : ℚ :=
  if r.is_qualified = false then 1/10
  else
    min 1
      ((if 10 ≤ r.up_days_count + r.down_days_count then (1:ℚ)/2 + 1/5
        else if 6 ≤ r.up_days_count + r.down_days_count then 1/2 + 1/10
        else 1/2)
      + (if oGe r.volume_contrast 2 then (1:ℚ)/5
         else if oGe r.volume_contrast (3/2) then 1/10
         else 0)
      + ((if r.cond_contrast then (1:ℚ) else 0) + (if r.cond_up then 1 else 0)
          + (if r.cond_down then 1 else 0)) * (1/20))

def vpDefaultName : String := "量价关系策略"

def msgVInsufficient : String := "数据不足"

def msgVRecent : String := "近期数据不足"

def msgVFailed : String := "量价分析失败"

def vpReasonOk : String := "符合放量上涨缩量下跌模式"

def vpReasonNo : String := "不符合条件"

/-- Model of `VolumePatternStrategy.analyze`: validate (`days_to_analyze + 10` rows
minimum), sort by date, take the trailing `days+5` rows, analyse the pattern
(the reason strings' numeric formatting is elided). -/
def vpAnalyze (days : ℕ) (pMin cMin : ℚ) (code nm : String) (data : List VRow) :
    StrategyResult :=
  if data.length < days + 10 then mkFailedResult vpDefaultName code nm msgVInsufficient
  else if (lastN (days + 5) (sortVRows data)).length < days then
    mkFailedResult vpDefaultName code nm msgVRecent
  else
    match analyzeVPP days pMin cMin (lastN (days + 5) (sortVRows data)) with
    | none => mkFailedResult vpDefaultName code nm msgVFailed
    | some r =>
      { stock_code := code, stock_name := nm, strategy_name := vpDefaultName,
        is_qualified := r.is_qualified,
        score := vpScore cMin r,
        confidence := vpConfidence r,
        reason := if r.is_qualified then vpReasonOk else vpReasonNo,
        current_price :=
          ((lastN (days + 5) (sortVRows data)).getLastD default).close,
        trade_date :=
          toString ((lastN (days + 5) (sortVRows data)).getLastD default).trade_date }

/-- A 30-row accepted series whose analysis window has exactly three down-days
(at window indices 1–3, where the 5-day volume MA is still NaN) and three
up-days with defined ratio 1: the down-day average volume ratio is NaN. -/
def c5data : List VRow :=
  [⟨1, 200, 100⟩, ⟨2, 200, 100⟩, ⟨3, 200, 100⟩, ⟨4, 200, 100⟩, ⟨5, 200, 100⟩,
   ⟨6, 200, 100⟩, ⟨7, 200, 100⟩, ⟨8, 200, 100⟩, ⟨9, 200, 100⟩, ⟨10, 200, 100⟩,
   ⟨11, 200, 100⟩, ⟨12, 100, 100⟩, ⟨13, 50, 100⟩, ⟨14, 25, 100⟩, ⟨15, 50, 100⟩,
   ⟨16, 100, 100⟩, ⟨17, 200, 100⟩, ⟨18, 200, 100⟩, ⟨19, 200, 100⟩, ⟨20, 200, 100⟩,
   ⟨21, 200, 100⟩, ⟨22, 200, 100⟩, ⟨23, 200, 100⟩, ⟨24, 200, 100⟩, ⟨25, 200, 100⟩,
   ⟨26, 200, 100⟩, ⟨27, 200, 100⟩, ⟨28, 200, 100⟩, ⟨29, 200, 100⟩, ⟨30, 200, 100⟩]

/-! ## Theorems -/

theorem kSpec_eq (bars : List Bar) (i : ℕ) :
    kSpec bars i = 2/3 * kPrevSpec bars i + 1/3 * rsvSpec bars i := by
  cases i <;> rfl

theorem dSpec_eq (bars : List Bar) (i : ℕ) :
    dSpec bars i = 2/3 * dPrevSpec bars i + 1/3 * kSpec bars i := by
  cases i <;> rfl

theorem kdjStep_spec (bars : List Bar) (i : ℕ)
    (h : highMax bars i - lowMin bars i ≠ 0) :
    kdjStep bars i (some (kPrevSpec bars i)) (some (dPrevSpec bars i)) =
      (some (kSpec bars i), some (dSpec bars i), some (jSpec bars i)) := by
  unfold kdjStep
  rw [rsvAt, if_neg h]
  simp only [oSMul, oAdd, oSub, Option.map_some']
  rw [← rsvSpec, ← kSpec_eq, ← dSpec_eq]
  rfl

theorem kdjAux_range' (bars : List Bar) :
    ∀ (b a : ℕ), (∀ i, a ≤ i → i < a + b → highMax bars i - lowMin bars i ≠ 0) →
      kdjAux bars (some (kPrevSpec bars a)) (some (dPrevSpec bars a)) (List.range' a b) =
        (List.range' a b).map
          (fun i => (some (kSpec bars i), some (dSpec bars i), some (jSpec bars i))) := by
  intro b
  induction b with
  | zero => intro a _; rfl
  | succ n ih =>
    intro a h
    rw [List.range'_succ, List.map_cons, kdjAux]
    have hstep := kdjStep_spec bars a (h a le_rfl (by omega))
    rw [hstep]
    have hk : kSpec bars a = kPrevSpec bars (a + 1) := rfl
    have hd : dSpec bars a = dPrevSpec bars (a + 1) := rfl
    rw [hk, hd, ih (a + 1) (fun i hi hi2 => h i (by omega) (by omega))]

theorem kdjAux_length (bars : List Bar) :
    ∀ (is : List ℕ) (kp dp : Option ℚ), (kdjAux bars kp dp is).length = is.length := by
  intro is
  induction is with
  | nil => intro kp dp; rfl
  | cons i is ih => intro kp dp; simp [kdjAux, ih]

/-- Claim C3: on a non-empty ascending series in which no 9-bar rolling window
is flat, `_calculate_kdj` returns a series of the same length in the same
order, and its K, D, J columns satisfy the claimed recursion
`K[i] = 2/3·K[i-1] + 1/3·rsv[i]`, `D[i] = 2/3·D[i-1] + 1/3·K[i]`,
`J[i] = 3·K[i] - 2·D[i]` with seed `K₀ = D₀ = 50` and the rsv formula over the
window clamped at index 0 (`kSpec`/`dSpec`/`jSpec`/`rsvSpec`). -/
theorem c3_kdj_recursion (bars : List Bar)
    (hsorted : List.Sorted (fun a b => a.trade_date ≤ b.trade_date) bars)
    (hnf : ∀ i, i < bars.length → highMax bars i - lowMin bars i ≠ 0) :
    (calculateKdj bars).length = bars.length
    ∧ (calculateKdj bars).map Prod.fst = bars
    ∧ (calculateKdj bars).map Prod.snd =
        (List.range bars.length).map
          (fun i => (some (kSpec bars i), some (dSpec bars i), some (jSpec bars i))) := by
  have hsort_eq : sortBarsByDate bars = bars := hsorted.insertionSort_eq
  have haux : kdjAux bars (some 50) (some 50) (List.range bars.length) =
      (List.range bars.length).map
        (fun i => (some (kSpec bars i), some (dSpec bars i), some (jSpec bars i))) := by
    rw [List.range_eq_range']
    exact kdjAux_range' bars bars.length 0 (fun i _ h2 => hnf i (by omega))
  have hlen : (kdjAux bars (some 50) (some 50) (List.range bars.length)).length =
      bars.length := by
    rw [kdjAux_length]; exact List.length_range _
  unfold calculateKdj
  rw [hsort_eq]
  refine ⟨?_, ?_, ?_⟩
  · rw [List.length_zip, hlen, Nat.min_self]
  · exact List.map_fst_zip _ _ (by rw [hlen])
  · rw [List.map_snd_zip _ _ (by rw [hlen]), haux]

theorem kdjWitBars_sorted :
    List.Sorted (fun a b => a.trade_date ≤ b.trade_date) kdjWitBars := by
  decide

theorem kdjWitBars_nonflat :
    ∀ i, i < kdjWitBars.length → highMax kdjWitBars i - lowMin kdjWitBars i ≠ 0 := by
  intro i hi
  have h2 : i < 2 := by simpa [kdjWitBars] using hi
  interval_cases i <;>
    simp [highMax, lowMin, windowSlice, listMax, listMin, kdjWitBars]

theorem c3_kdj_recursion_witness :
    List.Sorted (fun a b => a.trade_date ≤ b.trade_date) kdjWitBars
    ∧ (∀ i, i < kdjWitBars.length → highMax kdjWitBars i - lowMin kdjWitBars i ≠ 0)
    ∧ ((calculateKdj kdjWitBars).length = kdjWitBars.length
        ∧ (calculateKdj kdjWitBars).map Prod.fst = kdjWitBars
        ∧ (calculateKdj kdjWitBars).map Prod.snd =
            (List.range kdjWitBars.length).map
              (fun i => (some (kSpec kdjWitBars i), some (dSpec kdjWitBars i),
                some (jSpec kdjWitBars i)))) :=
  ⟨kdjWitBars_sorted, kdjWitBars_nonflat,
    c3_kdj_recursion kdjWitBars kdjWitBars_sorted kdjWitBars_nonflat⟩

/-- Claim C2 is violated by the code: `_calculate_kdj` has no flat-window
guard, so on a series whose first bar has `high = low` the rsv computation is
`0/0` (NaN, modelled `none`), and K, D and J are all NaN for that bar instead
of rsv resolving to 0 with J defined. -/
theorem c2_flat_window_j_nan :
    rsvAt [flatBar] 0 = none
    ∧ calculateKdj [flatBar] = [(flatBar, (none, none, none))] := by
  constructor <;>
    simp [calculateKdj, sortBarsByDate, List.insertionSort, List.orderedInsert,
      kdjAux, kdjStep, rsvAt, highMax, lowMin, windowSlice, listMax, listMin,
      flatBar, oAdd, oSub, oSMul, List.range_succ]

/-! ### Registry dictionary lemmas -/

theorem dictUpsert_not_mem (k : String) (v : StrategyResult)
    (acc : List (String × StrategyResult)) (h : k ∉ acc.map Prod.fst) :
    dictUpsert k v acc = acc ++ [(k, v)] := by
  induction acc with
  | nil => rfl
  | cons p ps ih =>
    simp only [List.map_cons, List.mem_cons, not_or] at h
    rw [dictUpsert, if_neg (fun hh => h.1 hh.symm), ih h.2, List.cons_append]

theorem dictGet_upsert_self (k : String) (v : StrategyResult)
    (acc : List (String × StrategyResult)) :
    dictGet k (dictUpsert k v acc) = some v := by
  induction acc with
  | nil => simp [dictUpsert, dictGet]
  | cons p ps ih =>
    by_cases h : p.1 = k
    · simp [dictUpsert, h, dictGet]
    · simp [dictUpsert, h, dictGet, ih]

theorem dictGet_upsert_ne (k k' : String) (v : StrategyResult)
    (acc : List (String × StrategyResult)) (h : k ≠ k') :
    dictGet k (dictUpsert k' v acc) = dictGet k acc := by
  induction acc with
  | nil => simp [dictUpsert, dictGet, Ne.symm h]
  | cons p ps ih =>
    by_cases hp : p.1 = k'
    · simp [dictUpsert, hp, dictGet, Ne.symm h]
    · simp only [dictUpsert, if_neg hp, dictGet]
      by_cases hk : p.1 = k
      · simp [hk]
      · simp [hk, ih]

theorem analyzeStockAux_not_mem {α : Type} (code nm : String) (d : α) (k : String) :
    ∀ (ss : List (Strategy α)) (acc : List (String × StrategyResult)),
      k ∉ ss.map Strategy.name →
      dictGet k (analyzeStockAux code nm d acc ss) = dictGet k acc := by
  intro ss
  induction ss with
  | nil => intro acc _; rfl
  | cons s ts ih =>
    intro acc h
    simp only [List.map_cons, List.mem_cons, not_or] at h
    rw [analyzeStockAux, ih _ h.2, dictGet_upsert_ne _ _ _ _ h.1]

/-- Flat-mode error conversion: within a run of `analyze_stock`, a strategy
whose `analyze` raises contributes exactly the failure verdict. -/
theorem analyzeStockAux_error {α : Type} (code nm : String) (d : α) :
    ∀ (ss : List (Strategy α)) (acc : List (String × StrategyResult))
      (s : Strategy α) (e : String),
      (ss.map Strategy.name).Nodup → s ∈ ss →
      s.analyze code nm d = Except.error e →
      dictGet s.name (analyzeStockAux code nm d acc ss) =
        some (createFailedResult s code nm (errText ++ e)) := by
  intro ss
  induction ss with
  | nil => intro acc s e _ hs _; cases hs
  | cons t ts ih =>
    intro acc s e hnd hs he
    simp only [List.map_cons, List.nodup_cons] at hnd
    rcases List.mem_cons.mp hs with rfl | hmem
    · rw [analyzeStockAux, analyzeStockAux_not_mem code nm d _ _ _ hnd.1,
        dictGet_upsert_self]
      simp [verdictOf, he]
    · rw [analyzeStockAux]
      exact ih _ s e hnd.2 hmem he

/-- Layered-mode short-circuit: if every filter before `f` passes and `f`
either fails `passes_filter` or raises, the filter phase stops at `f` with
exactly the verdicts and invocations of the processed prefix. -/
theorem runFiltersAux_fail {α : Type} (code nm : String) (d : α)
    (f : Strategy α) (fs₂ : List (Strategy α)) :
    ∀ (fs₁ : List (Strategy α)) (acc : List (String × StrategyResult))
      (inv : List String),
      ((fs₁ ++ [f]).map Strategy.name).Nodup →
      (∀ g ∈ fs₁ ++ [f], g.name ∉ acc.map Prod.fst) →
      (∀ g ∈ fs₁, ∃ r, g.analyze code nm d = Except.ok r ∧ passesFilter g r = true) →
      ((∃ r, f.analyze code nm d = Except.ok r ∧ passesFilter f r = false) ∨
        (∃ e, f.analyze code nm d = Except.error e)) →
      runFiltersAux code nm d acc inv (fs₁ ++ f :: fs₂) =
        (acc ++ (fs₁ ++ [f]).map (fun g => (g.name, verdictOf g code nm d)),
          inv ++ (fs₁ ++ [f]).map Strategy.name, false) := by
  intro fs₁
  induction fs₁ with
  | nil =>
    intro acc inv _ hdisj _ hfail
    have hfacc : f.name ∉ acc.map Prod.fst := hdisj f (by simp)
    rcases hfail with ⟨r, hok, hpf⟩ | ⟨e, herr⟩
    · simp only [List.nil_append, runFiltersAux, hok, hpf, Bool.false_eq_true,
        if_false]
      rw [dictUpsert_not_mem _ _ _ hfacc]
      simp [verdictOf, hok]
    · simp only [List.nil_append, runFiltersAux, herr]
      rw [dictUpsert_not_mem _ _ _ hfacc]
      simp [verdictOf, herr]
  | cons g gs ih =>
    intro acc inv hnd hdisj hpass hfail
    obtain ⟨r, hok, hpf⟩ := hpass g (by simp)
    have hgacc : g.name ∉ acc.map Prod.fst := hdisj g (by simp)
    have hnd' : ((gs ++ [f]).map Strategy.name).Nodup := by
      simp only [List.cons_append, List.map_cons, List.nodup_cons] at hnd
      exact hnd.2
    have hgname : g.name ∉ (gs ++ [f]).map Strategy.name := by
      simp only [List.cons_append, List.map_cons, List.nodup_cons] at hnd
      exact hnd.1
    have hdisj' : ∀ h ∈ gs ++ [f], h.name ∉ (acc ++ [(g.name, r)]).map Prod.fst := by
      intro h hh
      simp only [List.map_append, List.mem_append, List.map_cons, List.map_nil,
        List.mem_singleton, not_or]
      refine ⟨hdisj h (by simp [hh]), fun heq => hgname ?_⟩
      rw [← heq]
      exact List.mem_map_of_mem Strategy.name hh
    have hpass' : ∀ h ∈ gs, ∃ r', h.analyze code nm d = Except.ok r' ∧
        passesFilter h r' = true :=
      fun h hh => hpass h (by simp [hh])
    simp only [List.cons_append, runFiltersAux, hok, hpf, if_true, List.append_eq]
    rw [dictUpsert_not_mem _ _ _ hgacc,
      ih (acc ++ [(g.name, r)]) (inv ++ [g.name]) hnd' hdisj' hpass' hfail]
    simp [verdictOf, hok, List.append_assoc]

/-- Layered evaluation with a failing filter: the whole protocol returns only
the processed filters' verdicts, and the invocation trace shows that no
scoring strategy's `analyze` ran. -/
theorem analyzeStockWithFilteringT_fail {α : Type} (code nm : String) (d : α)
    (fs₁ : List (Strategy α)) (f : Strategy α) (fs₂ sss : List (Strategy α))
    (hnd : ((fs₁ ++ [f]).map Strategy.name).Nodup)
    (hpass : ∀ g ∈ fs₁, ∃ r, g.analyze code nm d = Except.ok r ∧
      passesFilter g r = true)
    (hfail : (∃ r, f.analyze code nm d = Except.ok r ∧ passesFilter f r = false) ∨
      (∃ e, f.analyze code nm d = Except.error e)) :
    analyzeStockWithFilteringT code nm d (fs₁ ++ f :: fs₂) sss =
      ((fs₁ ++ [f]).map (fun g => (g.name, verdictOf g code nm d)),
        (fs₁ ++ [f]).map Strategy.name) := by
  unfold analyzeStockWithFilteringT
  rw [runFiltersAux_fail code nm d f fs₂ fs₁ [] [] hnd (by simp) hpass hfail]
  rfl

/-- Claim C1: in layered evaluation, if every filter strategy before `f`
passes and `f` fails its `passes_filter` check (or its `analyze` raises),
evaluation stops immediately: the returned map holds exactly the verdicts of
the filters evaluated so far (`fs₁` and `f`), and the invocation trace shows
that no strategy beyond them — in particular no scoring strategy — had its
`analyze` invoked. -/
theorem c1_layered_short_circuit {α : Type} (code nm : String) (d : α)
    (fs₁ : List (Strategy α)) (f : Strategy α) (fs₂ sss : List (Strategy α))
    (hnd : ((fs₁ ++ [f]).map Strategy.name).Nodup)
    (hpass : ∀ g ∈ fs₁, ∃ r, g.analyze code nm d = Except.ok r ∧
      passesFilter g r = true)
    (hfail : (∃ r, f.analyze code nm d = Except.ok r ∧ passesFilter f r = false) ∨
      (∃ e, f.analyze code nm d = Except.error e)) :
    analyzeStockWithFilteringT code nm d (fs₁ ++ f :: fs₂) sss =
      ((fs₁ ++ [f]).map (fun g => (g.name, verdictOf g code nm d)),
        (fs₁ ++ [f]).map Strategy.name) :=
  analyzeStockWithFilteringT_fail code nm d fs₁ f fs₂ sss hnd hpass hfail

theorem c1_layered_short_circuit_witness :
    (([filterPassStrategy] ++ [filterFailStrategy]).map Strategy.name).Nodup
    ∧ analyzeStockWithFilteringT nmA nmB ()
        ([filterPassStrategy] ++ filterFailStrategy :: []) [scoringStrategy] =
      (([filterPassStrategy] ++ [filterFailStrategy]).map
          (fun g => (g.name, verdictOf g nmA nmB ())),
        ([filterPassStrategy] ++ [filterFailStrategy]).map Strategy.name) :=
  ⟨by decide,
    c1_layered_short_circuit nmA nmB () [filterPassStrategy] filterFailStrategy
      [] [scoringStrategy] (by decide)
      (fun g hg => by
        simp only [List.mem_singleton] at hg
        subst hg
        exact ⟨passVerdict, rfl, by decide⟩)
      (Or.inl ⟨failVerdict, rfl, by decide⟩)⟩

/-- Claim C9: a strategy whose `analyze` raises never propagates the
exception.  In flat mode its entry in the result map is the conversion to a
disqualified verdict with score 0, confidence 0 and the error text appended to
the failure reason; in layered mode a raising filter strategy short-circuits
exactly like an explicit disqualification. -/
theorem c9_error_handling {α : Type} (code nm : String) (d : α) :
    (∀ (strategies : List (Strategy α)) (s : Strategy α) (e : String),
      (strategies.map Strategy.name).Nodup → s ∈ strategies →
      s.analyze code nm d = Except.error e →
      dictGet s.name (analyzeStock code nm d strategies) =
        some (createFailedResult s code nm (errText ++ e))
      ∧ (createFailedResult s code nm (errText ++ e)).is_qualified = false
      ∧ (createFailedResult s code nm (errText ++ e)).score = 0
      ∧ (createFailedResult s code nm (errText ++ e)).confidence = 0
      ∧ (createFailedResult s code nm (errText ++ e)).reason = errText ++ e)
    ∧ (∀ (fs₁ : List (Strategy α)) (f : Strategy α) (fs₂ sss : List (Strategy α))
        (e : String),
      ((fs₁ ++ [f]).map Strategy.name).Nodup →
      (∀ g ∈ fs₁, ∃ r, g.analyze code nm d = Except.ok r ∧
        passesFilter g r = true) →
      f.analyze code nm d = Except.error e →
      analyzeStockWithFilteringT code nm d (fs₁ ++ f :: fs₂) sss =
        ((fs₁ ++ [f]).map (fun g => (g.name, verdictOf g code nm d)),
          (fs₁ ++ [f]).map Strategy.name)) := by
  constructor
  · intro strategies s e hnd hs he
    exact ⟨analyzeStockAux_error code nm d strategies [] s e hnd hs he,
      rfl, rfl, rfl, rfl⟩
  · intro fs₁ f fs₂ sss e hnd hpass he
    exact analyzeStockWithFilteringT_fail code nm d fs₁ f fs₂ sss hnd hpass
      (Or.inr ⟨e, he⟩)

theorem c9_error_handling_witness :
    errorStrategy.analyze nmA nmB () = Except.error msgBoom
    ∧ dictGet errorStrategy.name (analyzeStock nmA nmB () [errorStrategy]) =
        some (createFailedResult errorStrategy nmA nmB (errText ++ msgBoom))
    ∧ analyzeStockWithFilteringT nmA nmB () [errorStrategy] [scoringStrategy] =
        ([(errorStrategy.name, verdictOf errorStrategy nmA nmB ())],
          [errorStrategy.name]) :=
  ⟨rfl,
    ((c9_error_handling nmA nmB ()).1 [errorStrategy] errorStrategy msgBoom
      (by simp) (by simp) rfl).1,
    (c9_error_handling nmA nmB ()).2 [] errorStrategy [] [scoringStrategy]
      msgBoom (by simp) (by simp) rfl⟩

/-- Claim C8: `StrategyResult` construction succeeds exactly when
`0 ≤ score ≤ 100` and `0 ≤ confidence ≤ 1`, raising otherwise instead of
clamping, and any constructed verdict carries its bounds. -/
theorem c8_verdict_bounds (sc sn st : String) (q : Bool) (score confidence : ℚ)
    (rsn : String) (cp : ℚ) (td : String) :
    ((∃ r, StrategyResult.make sc sn st q score confidence rsn cp td =
        Except.ok r) ↔
      (0 ≤ score ∧ score ≤ 100 ∧ 0 ≤ confidence ∧ confidence ≤ 1))
    ∧ (∀ r, StrategyResult.make sc sn st q score confidence rsn cp td =
        Except.ok r →
        r.score = score ∧ r.confidence = confidence
        ∧ 0 ≤ r.score ∧ r.score ≤ 100 ∧ 0 ≤ r.confidence ∧ r.confidence ≤ 1) := by
  unfold StrategyResult.make
  by_cases h1 : 0 ≤ score ∧ score ≤ 100
  · by_cases h2 : 0 ≤ confidence ∧ confidence ≤ 1
    · rw [if_pos h1, if_pos h2]
      refine ⟨⟨fun _ => ⟨h1.1, h1.2, h2.1, h2.2⟩, fun _ => ⟨_, rfl⟩⟩, ?_⟩
      intro r hr
      have hinj := Except.ok.inj hr
      subst hinj
      exact ⟨rfl, rfl, h1.1, h1.2, h2.1, h2.2⟩
    · rw [if_pos h1, if_neg h2]
      refine ⟨⟨?_, ?_⟩, ?_⟩
      · rintro ⟨r, hr⟩
        exact absurd hr (by simp)
      · intro hb
        exact absurd ⟨hb.2.2.1, hb.2.2.2⟩ h2
      · intro r hr
        exact absurd hr (by simp)
  · rw [if_neg h1]
    refine ⟨⟨?_, ?_⟩, ?_⟩
    · rintro ⟨r, hr⟩
      exact absurd hr (by simp)
    · intro hb
      exact absurd ⟨hb.1, hb.2.1⟩ h1
    · intro r hr
      exact absurd hr (by simp)

theorem c8_verdict_bounds_witness :
    ∃ r, StrategyResult.make nmA nmB nmF1 true 50 (1/2) emptyStr 0 emptyStr =
      Except.ok r :=
  (c8_verdict_bounds nmA nmB nmF1 true 50 (1/2) emptyStr 0 emptyStr).1.mpr
    (by norm_num)

/-! ### J-value strategy theorems -/

/-- Evaluation of `JValueStrategy.analyze` on accepted data: the verdict's
fields in terms of the latest bar's J value. -/
theorem jValueAnalyze_eval (max_j_value : ℚ) (code nm : String)
    (rows : List JRow) (latest : JRow) (j : ℚ)
    (h5 : validateJData rows 5 = true)
    (hlast : (sortJRows rows).getLast? = some latest)
    (hJ : latest.J = some j) :
    (jValueAnalyze max_j_value code nm rows).is_qualified = decide (j < max_j_value)
    ∧ (jValueAnalyze max_j_value code nm rows).score =
        (if j ≤ 0 then (100:ℚ) else if max_j_value ≤ j then 0
          else 100 - j / max_j_value * 90)
    ∧ (jValueAnalyze max_j_value code nm rows).confidence =
        (if j ≤ max_j_value * (1/2) then (9/10:ℚ)
          else if j ≤ max_j_value * (8/10) then 7/10 else 1/2) := by
  refine ⟨?_, ?_, ?_⟩ <;> simp [jValueAnalyze, h5, hlast, hJ]

/-- Claim C4: on accepted data the threshold-oversold verdict qualifies iff
the latest J is strictly below `max_j_value`; the score is 100 at `J ≤ 0`, 0
at `J ≥ max_j_value`, and `100 - J/max·90` in between; confidence is the
three-tier step function with breakpoints `0.5·max` and `0.8·max`. -/
theorem c4_jvalue_verdict (max_j_value : ℚ) (code nm : String)
    (rows : List JRow) (latest : JRow) (j : ℚ)
    (hmax : 0 < max_j_value)
    (h5 : validateJData rows 5 = true)
    (hlast : (sortJRows rows).getLast? = some latest)
    (hJ : latest.J = some j) :
    ((jValueAnalyze max_j_value code nm rows).is_qualified = true ↔ j < max_j_value)
    ∧ (j ≤ 0 → (jValueAnalyze max_j_value code nm rows).score = 100)
    ∧ (max_j_value ≤ j → (jValueAnalyze max_j_value code nm rows).score = 0)
    ∧ (0 < j → j < max_j_value →
        (jValueAnalyze max_j_value code nm rows).score = 100 - j / max_j_value * 90)
    ∧ (j ≤ max_j_value * (1/2) →
        (jValueAnalyze max_j_value code nm rows).confidence = 9/10)
    ∧ (¬ j ≤ max_j_value * (1/2) → j ≤ max_j_value * (8/10) →
        (jValueAnalyze max_j_value code nm rows).confidence = 7/10)
    ∧ (¬ j ≤ max_j_value * (8/10) →
        (jValueAnalyze max_j_value code nm rows).confidence = 1/2) := by
  obtain ⟨hq, hsc, hcf⟩ :=
    jValueAnalyze_eval max_j_value code nm rows latest j h5 hlast hJ
  refine ⟨?_, ?_, ?_, ?_, ?_, ?_, ?_⟩
  · rw [hq]; exact decide_eq_true_iff
  · intro hj0; rw [hsc, if_pos hj0]
  · intro hmj
    rw [hsc, if_neg (by linarith), if_pos hmj]
  · intro hj0 hjm
    rw [hsc, if_neg (by linarith), if_neg (by linarith)]
  · intro h; rw [hcf, if_pos h]
  · intro h1 h2; rw [hcf, if_neg h1, if_pos h2]
  · intro h8
    have h5' : ¬ j ≤ max_j_value * (1/2) := fun hh => h8 (by linarith)
    rw [hcf, if_neg h5', if_neg h8]

theorem c4_jvalue_verdict_witness :
    (0:ℚ) < 13
    ∧ validateJData jWitRows 5 = true
    ∧ (((jValueAnalyze 13 nmA nmB jWitRows).is_qualified = true ↔ (-5:ℚ) < 13)
      ∧ ((-5:ℚ) ≤ 0 → (jValueAnalyze 13 nmA nmB jWitRows).score = 100)
      ∧ ((13:ℚ) ≤ -5 → (jValueAnalyze 13 nmA nmB jWitRows).score = 0)
      ∧ ((0:ℚ) < -5 → (-5:ℚ) < 13 →
          (jValueAnalyze 13 nmA nmB jWitRows).score = 100 - (-5) / 13 * 90)
      ∧ ((-5:ℚ) ≤ 13 * (1/2) →
          (jValueAnalyze 13 nmA nmB jWitRows).confidence = 9/10)
      ∧ (¬ (-5:ℚ) ≤ 13 * (1/2) → (-5:ℚ) ≤ 13 * (8/10) →
          (jValueAnalyze 13 nmA nmB jWitRows).confidence = 7/10)
      ∧ (¬ (-5:ℚ) ≤ 13 * (8/10) →
          (jValueAnalyze 13 nmA nmB jWitRows).confidence = 1/2)) :=
  ⟨by norm_num, by decide,
    c4_jvalue_verdict 13 nmA nmB jWitRows jWitLatest (-5) (by norm_num)
      (by decide) (by decide) rfl⟩

/-- Claim C10: a J-value filter strategy with the default
`threshold_score = 100` passes its own verdict exactly when the latest J is
`≤ 0`: any qualifying J strictly between 0 and `max_j_value` scores strictly
below 100, so only the `J ≤ 0` branch (score exactly 100) reaches the
threshold. -/
theorem c10_default_filter_threshold (max_j_value : ℚ) (code nm : String)
    (rows : List JRow) (latest : JRow) (j : ℚ)
    (hmax : 0 < max_j_value)
    (h5 : validateJData rows 5 = true)
    (hlast : (sortJRows rows).getLast? = some latest)
    (hJ : latest.J = some j) :
    (passesFilter (jValueFilterStrategy max_j_value)
        (jValueAnalyze max_j_value code nm rows) = true ↔ j ≤ 0)
    ∧ (0 < j → j < max_j_value →
        (jValueAnalyze max_j_value code nm rows).score < 100) := by
  obtain ⟨hq, hsc, _⟩ :=
    jValueAnalyze_eval max_j_value code nm rows latest j h5 hlast hJ
  have hscore_lt : ∀ hj0 : 0 < j, j < max_j_value →
      (jValueAnalyze max_j_value code nm rows).score < 100 := by
    intro hj0 hjm
    rw [hsc, if_neg (by linarith), if_neg (by linarith)]
    have hdiv : 0 < j / max_j_value * 90 := by
      have := div_pos hj0 hmax
      linarith
    linarith
  refine ⟨?_, hscore_lt⟩
  simp only [passesFilter, jValueFilterStrategy, if_true]
  rw [hq, hsc]
  constructor
  · intro h
    rw [Bool.and_eq_true, decide_eq_true_iff, decide_eq_true_iff] at h
    by_contra hj0
    push_neg at hj0
    rcases le_or_lt max_j_value j with hmj | hjm
    · rw [if_neg (by linarith), if_pos hmj] at h
      linarith [h.2]
    · rw [if_neg (by linarith), if_neg (by linarith)] at h
      have hdiv : 0 < j / max_j_value * 90 := by
        have := div_pos hj0 hmax
        linarith
      linarith [h.2]
  · intro hj0
    rw [Bool.and_eq_true, decide_eq_true_iff, decide_eq_true_iff]
    exact ⟨lt_of_le_of_lt hj0 hmax, by rw [if_pos hj0]⟩

/-- Claim C6: for a non-empty score map the `weighted_average` policy returns
`Σ(score·weight)/Σ(weight)` for positive total weight and falls back to the
simple mean at non-positive total weight; the unweighted total score is the
simple arithmetic mean under every policy; and two equally weighted
strategies scoring 80 and 60 yield `(70, 70)`. -/
theorem c6_weighted_average (strategy_scores strategy_weights : List (String × ℝ))
    (h : strategy_scores ≠ []) :
    (∀ scoring_method : String,
      (calculateScores scoring_method strategy_scores strategy_weights).1 =
        (strategy_scores.map Prod.snd).sum / (strategy_scores.map Prod.snd).length)
    ∧ ((calculateScores weightedAverageName strategy_scores strategy_weights).2 =
        if 0 < (strategy_scores.map (fun p => lookupD strategy_weights p.1 1)).sum then
          (List.zipWith (fun s w => s * w) (strategy_scores.map Prod.snd)
            (strategy_scores.map (fun p => lookupD strategy_weights p.1 1))).sum /
              (strategy_scores.map (fun p => lookupD strategy_weights p.1 1)).sum
        else (strategy_scores.map Prod.snd).sum / (strategy_scores.map Prod.snd).length)
    ∧ calculateScores weightedAverageName scores8060 weights11 = (70, 70) := by
  obtain ⟨p, ps, rfl⟩ := List.exists_cons_of_ne_nil h
  refine ⟨?_, ?_, ?_⟩
  · intro scoring_method
    rfl
  · rfl
  · have hfind1 : lookupD weights11 nmF1 1 = 1 := by
      simp [lookupD, weights11, List.find?]
    have hfind2 : lookupD weights11 nmS1 1 = 1 := by
      simp [lookupD, weights11, List.find?, nmF1, nmS1]
    simp only [calculateScores, scores8060, List.map_cons, List.map_nil, hfind1,
      hfind2]
    norm_num

theorem c6_weighted_average_witness :
    scores8060 ≠ []
    ∧ (calculateScores weightedAverageName scores8060 weights11).1 =
        (scores8060.map Prod.snd).sum / (scores8060.map Prod.snd).length
    ∧ calculateScores weightedAverageName scores8060 weights11 = (70, 70) :=
  ⟨by simp [scores8060],
    (c6_weighted_average scores8060 weights11 (by simp [scores8060])).1
      weightedAverageName,
    (c6_weighted_average scores8060 weights11 (by simp [scores8060])).2.2⟩

theorem c10_default_filter_threshold_witness :
    (0:ℚ) < 13
    ∧ ((passesFilter (jValueFilterStrategy 13)
          (jValueAnalyze 13 nmA nmB jWitRows) = true ↔ (-5:ℚ) ≤ 0)
      ∧ ((0:ℚ) < -5 → (-5:ℚ) < 13 →
          (jValueAnalyze 13 nmA nmB jWitRows).score < 100)) :=
  ⟨by norm_num,
    c10_default_filter_threshold 13 nmA nmB jWitRows jWitLatest (-5)
      (by norm_num) (by decide) (by decide) rfl⟩

/-! ### Order lemmas -/

theorem pairLe_refl (p : ℚ × ℚ) : pairLe p p := Or.inr ⟨rfl, le_refl _⟩

theorem pairLe_trans {p q r : ℚ × ℚ} (h1 : pairLe p q) (h2 : pairLe q r) :
    pairLe p r := by
  rcases h1 with h1 | ⟨h1e, h1le⟩
  · rcases h2 with h2 | ⟨h2e, _⟩
    · exact Or.inl (h1.trans h2)
    · exact Or.inl (h2e ▸ h1)
  · rcases h2 with h2 | ⟨h2e, h2le⟩
    · exact Or.inl (h1e ▸ h2)
    · exact Or.inr ⟨h1e.trans h2e, h1le.trans h2le⟩

theorem pairLe_total (p q : ℚ × ℚ) : pairLe p q ∨ pairLe q p := by
  rcases lt_trichotomy p.1 q.1 with h | h | h
  · exact Or.inl (Or.inl h)
  · rcases le_total p.2 q.2 with h2 | h2
    · exact Or.inl (Or.inr ⟨h, h2⟩)
    · exact Or.inr (Or.inr ⟨h.symm, h2⟩)
  · exact Or.inr (Or.inl h)

theorem pairLe_of_not {p q : ℚ × ℚ} (h : ¬ pairLe p q) : pairLe q p :=
  (pairLe_total p q).resolve_left h

theorem ne_of_not_pairLe {p q : ℚ × ℚ} (h : ¬ pairLe p q) : q ≠ p :=
  fun he => h (by rw [he]; exact pairLe_refl p)

/-! ### Stable-sort lemmas -/

theorem insertByKey_perm (key : StockScore → ℚ × ℚ) (x : StockScore) :
    ∀ l : List StockScore, (insertByKey key x l).Perm (x :: l) := by
  intro l
  induction l with
  | nil => exact List.Perm.refl _
  | cons y ys ih =>
    unfold insertByKey
    split_ifs with h
    · exact List.Perm.refl _
    · exact (ih.cons y).trans (List.Perm.swap x y ys)

theorem sortByKeyDesc_perm (key : StockScore → ℚ × ℚ) (l : List StockScore) :
    (sortByKeyDesc key l).Perm l := by
  induction l with
  | nil => exact List.Perm.nil
  | cons x xs ih =>
    exact (insertByKey_perm key x (sortByKeyDesc key xs)).trans (ih.cons x)

theorem insertByKey_pairwise (key : StockScore → ℚ × ℚ) (x : StockScore) :
    ∀ l : List StockScore,
      l.Pairwise (fun a b => pairLe (key b) (key a)) →
      (insertByKey key x l).Pairwise (fun a b => pairLe (key b) (key a)) := by
  intro l
  induction l with
  | nil => intro _; simp [insertByKey, pairLe_refl]
  | cons y ys ih =>
    intro hp
    rw [List.pairwise_cons] at hp
    unfold insertByKey
    split_ifs with h
    · rw [List.pairwise_cons]
      refine ⟨?_, List.pairwise_cons.mpr hp⟩
      intro z hz
      rcases List.mem_cons.mp hz with rfl | hz'
      · exact h
      · exact pairLe_trans (hp.1 z hz') h
    · rw [List.pairwise_cons]
      refine ⟨?_, ih hp.2⟩
      intro z hz
      have hz' := (insertByKey_perm key x ys).mem_iff.mp hz
      rcases List.mem_cons.mp hz' with rfl | hz''
      · exact pairLe_of_not h
      · exact hp.1 z hz''

theorem sortByKeyDesc_pairwise (key : StockScore → ℚ × ℚ) (l : List StockScore) :
    (sortByKeyDesc key l).Pairwise (fun a b => pairLe (key b) (key a)) := by
  induction l with
  | nil => exact List.Pairwise.nil
  | cons x xs ih => exact insertByKey_pairwise key x (sortByKeyDesc key xs) ih

theorem insertByKey_filter_ne (key : StockScore → ℚ × ℚ) (x : StockScore)
    (c : ℚ × ℚ) (hc : ¬ key x = c) :
    ∀ l : List StockScore,
      (insertByKey key x l).filter (fun z => decide (key z = c)) =
        l.filter (fun z => decide (key z = c)) := by
  intro l
  induction l with
  | nil => simp [insertByKey, hc]
  | cons y ys ih =>
    unfold insertByKey
    split_ifs with h
    · simp [List.filter_cons, hc]
    · simp only [List.filter_cons, ih]

theorem insertByKey_filter_eq (key : StockScore → ℚ × ℚ) (x : StockScore)
    (c : ℚ × ℚ) (hc : key x = c) :
    ∀ l : List StockScore,
      l.Pairwise (fun a b => pairLe (key b) (key a)) →
      (insertByKey key x l).filter (fun z => decide (key z = c)) =
        x :: l.filter (fun z => decide (key z = c)) := by
  intro l
  induction l with
  | nil => simp [insertByKey, hc]
  | cons y ys ih =>
    intro hp
    rw [List.pairwise_cons] at hp
    unfold insertByKey
    split_ifs with h
    · simp [List.filter_cons, hc]
    · have hyne : ¬ (key y = c) := by
        rw [← hc]
        exact (ne_of_not_pairLe h).symm
      simp only [List.filter_cons]
      rw [if_neg (by simp [hyne]), if_neg (by simp [hyne]), ih hp.2]

theorem sortByKeyDesc_filter (key : StockScore → ℚ × ℚ) (c : ℚ × ℚ) :
    ∀ l : List StockScore,
      (sortByKeyDesc key l).filter (fun z => decide (key z = c)) =
        l.filter (fun z => decide (key z = c)) := by
  intro l
  induction l with
  | nil => rfl
  | cons x xs ih =>
    show (insertByKey key x (sortByKeyDesc key xs)).filter _ = _
    by_cases hc : key x = c
    · rw [insertByKey_filter_eq key x c hc _ (sortByKeyDesc_pairwise key xs), ih,
        List.filter_cons, if_pos (by simp [hc])]
    · rw [insertByKey_filter_ne key x c hc, ih, List.filter_cons,
        if_neg (by simp [hc])]

theorem assignRanks_map_score (l : List StockScore) :
    ∀ i : ℕ, (assignRanks i l).map RankedStock.stock_score = l := by
  induction l with
  | nil => intro i; rfl
  | cons s ss ih => intro i; simp [assignRanks, ih]

theorem assignRanks_map_rank (l : List StockScore) :
    ∀ i : ℕ, (assignRanks i l).map RankedStock.rank = List.range' i l.length := by
  induction l with
  | nil => intro i; rfl
  | cons s ss ih => intro i; simp [assignRanks, ih, List.range'_succ]

/-- The code's filter agrees pointwise with the amended claim's predicate. -/
theorem survives_eq_keepSpec (sort_by : String) (min_score : ℚ) (minQ : ℕ)
    (s : StockScore) :
    survives sort_by min_score minQ s = keepSpec sort_by min_score minQ s := by
  unfold survives keepSpec
  by_cases ht : sort_by = sbTotalScore
  · by_cases h1 : s.total_score < min_score
    · simp [ht, h1, not_le.mpr h1, sbTotalScore, sbWeightedScore]
    · by_cases h3 : qualifiedCount s < minQ
      · simp [ht, h1, h3, not_le.mpr h3, sbTotalScore, sbWeightedScore]
      · simp [ht, h1, h3, not_lt.mp h1, not_lt.mp h3, sbTotalScore, sbWeightedScore]
  · by_cases hw : sort_by = sbWeightedScore
    · by_cases h2 : s.weighted_score < min_score
      · simp [ht, hw, h2, not_le.mpr h2, sbTotalScore, sbWeightedScore]
      · by_cases h3 : qualifiedCount s < minQ
        · simp [ht, hw, h2, h3, not_le.mpr h3, sbTotalScore, sbWeightedScore]
        · simp [ht, hw, h2, h3, not_lt.mp h2, not_lt.mp h3, sbTotalScore,
            sbWeightedScore]
    · by_cases h3 : qualifiedCount s < minQ
      · simp [ht, hw, h3, not_le.mpr h3]
      · simp [ht, hw, h3, not_lt.mp h3]

theorem sortKeySpec_total (s : StockScore) :
    sortKeySpec sbTotalScore s = (s.total_score, 0) := by
  simp [sortKeySpec]

theorem sortKeySpec_weighted (s : StockScore) :
    sortKeySpec sbWeightedScore s = (s.weighted_score, 0) := by
  simp [sortKeySpec, sbWeightedScore, sbTotalScore]

theorem sortKeySpec_qualified (s : StockScore) :
    sortKeySpec sbQualifiedCount s = ((qualifiedCount s : ℚ), s.weighted_score) := by
  simp [sortKeySpec, sbQualifiedCount, sbWeightedScore, sbTotalScore]

theorem sortKeySpec_confidence (s : StockScore) :
    sortKeySpec sbConfidence s = (s.confidence, 0) := by
  simp [sortKeySpec, sbConfidence, sbQualifiedCount, sbWeightedScore, sbTotalScore]

/-- Sorting-and-ranking pipeline: stable descending sort plus dense 1-based
ranks, characterised by permutation, sortedness, per-key-class order
preservation, and the rank sequence. -/
theorem rank_pipeline (key : StockScore → ℚ × ℚ) (l : List StockScore) :
    ((assignRanks 1 (sortByKeyDesc key l)).map RankedStock.stock_score).Perm l
    ∧ ((assignRanks 1 (sortByKeyDesc key l)).map RankedStock.stock_score).Pairwise
        (fun a b => pairLe (key b) (key a))
    ∧ (∀ c : ℚ × ℚ,
        ((assignRanks 1 (sortByKeyDesc key l)).map RankedStock.stock_score).filter
          (fun z => decide (key z = c)) =
          l.filter (fun z => decide (key z = c)))
    ∧ (assignRanks 1 (sortByKeyDesc key l)).map RankedStock.rank =
        List.range' 1 l.length := by
  rw [assignRanks_map_score, assignRanks_map_rank,
    (sortByKeyDesc_perm key l).length_eq]
  exact ⟨sortByKeyDesc_perm key l, sortByKeyDesc_pairwise key l,
    fun c => sortByKeyDesc_filter key c l, rfl⟩

theorem rankStocks_total_eq (e : ScoringEngine) (scores : List StockScore)
    (ms : ℚ) (mq : Option ℕ) :
    rankStocks e scores sbTotalScore ms mq =
      assignRanks 1 (sortByKeyDesc (fun s => (s.total_score, 0))
        (scores.filter (survives sbTotalScore ms (mq.getD e.min_qualified_strategies)))) := by
  simp [rankStocks]

theorem rankStocks_weighted_eq (e : ScoringEngine) (scores : List StockScore)
    (ms : ℚ) (mq : Option ℕ) :
    rankStocks e scores sbWeightedScore ms mq =
      assignRanks 1 (sortByKeyDesc (fun s => (s.weighted_score, 0))
        (scores.filter (survives sbWeightedScore ms (mq.getD e.min_qualified_strategies)))) := by
  simp [rankStocks, sbWeightedScore, sbTotalScore]

theorem rankStocks_qualified_eq (e : ScoringEngine) (scores : List StockScore)
    (ms : ℚ) (mq : Option ℕ) :
    rankStocks e scores sbQualifiedCount ms mq =
      assignRanks 1 (sortByKeyDesc (fun s => ((qualifiedCount s : ℚ), s.weighted_score))
        (scores.filter (survives sbQualifiedCount ms (mq.getD e.min_qualified_strategies)))) := by
  simp [rankStocks, sbQualifiedCount, sbWeightedScore, sbTotalScore]

theorem rankStocks_confidence_eq (e : ScoringEngine) (scores : List StockScore)
    (ms : ℚ) (mq : Option ℕ) :
    rankStocks e scores sbConfidence ms mq =
      assignRanks 1 (sortByKeyDesc (fun s => (s.confidence, 0))
        (scores.filter (survives sbConfidence ms (mq.getD e.min_qualified_strategies)))) := by
  simp [rankStocks, sbConfidence, sbQualifiedCount, sbWeightedScore, sbTotalScore]

/-- Claim C7, amended: for each of the four sort keys, `rank_stocks` keeps
exactly the entries passing the qualified-count minimum and — only under the
`total_score` / `weighted_score` keys — the `min_score` threshold, sorts the
survivors descending by the key (stably: ties keep original filtered order,
witnessed by per-key-class preservation), and assigns dense 1-based ranks. -/
theorem c7_amended (e : ScoringEngine) (scores : List StockScore)
    (sort_by : String) (min_score : ℚ) (min_qualified : Option ℕ)
    (hsb : sort_by = sbTotalScore ∨ sort_by = sbWeightedScore ∨
      sort_by = sbQualifiedCount ∨ sort_by = sbConfidence) :
    ((rankStocks e scores sort_by min_score min_qualified).map
        RankedStock.stock_score).Perm
      (scores.filter
        (keepSpec sort_by min_score (min_qualified.getD e.min_qualified_strategies)))
    ∧ ((rankStocks e scores sort_by min_score min_qualified).map
        RankedStock.stock_score).Pairwise
        (fun a b => pairLe (sortKeySpec sort_by b) (sortKeySpec sort_by a))
    ∧ (∀ c : ℚ × ℚ,
        ((rankStocks e scores sort_by min_score min_qualified).map
          RankedStock.stock_score).filter
            (fun z => decide (sortKeySpec sort_by z = c)) =
        (scores.filter
          (keepSpec sort_by min_score
            (min_qualified.getD e.min_qualified_strategies))).filter
              (fun z => decide (sortKeySpec sort_by z = c)))
    ∧ (rankStocks e scores sort_by min_score min_qualified).map RankedStock.rank =
        List.range' 1
          (scores.filter
            (keepSpec sort_by min_score
              (min_qualified.getD e.min_qualified_strategies))).length := by
  have hfe : scores.filter
      (survives sort_by min_score (min_qualified.getD e.min_qualified_strategies)) =
      scores.filter
        (keepSpec sort_by min_score (min_qualified.getD e.min_qualified_strategies)) :=
    List.filter_congr (fun s _ => survives_eq_keepSpec sort_by min_score _ s)
  rcases hsb with rfl | rfl | rfl | rfl
  · rw [rankStocks_total_eq, hfe]
    simp only [sortKeySpec_total]
    exact rank_pipeline (fun s => (s.total_score, 0)) _
  · rw [rankStocks_weighted_eq, hfe]
    simp only [sortKeySpec_weighted]
    exact rank_pipeline (fun s => (s.weighted_score, 0)) _
  · rw [rankStocks_qualified_eq, hfe]
    simp only [sortKeySpec_qualified]
    exact rank_pipeline (fun s => ((qualifiedCount s : ℚ), s.weighted_score)) _
  · rw [rankStocks_confidence_eq, hfe]
    simp only [sortKeySpec_confidence]
    exact rank_pipeline (fun s => (s.confidence, 0)) _

/-- Claim C7 as stated is false on the code: under the `confidence` sort key
with `min_score = 50`, an entry whose sort-relevant score (confidence 1 —
and its total and weighted scores 10 likewise) lies below 50 is not excluded;
it is returned with rank 1, because the code checks `min_score` only for the
`total_score` and `weighted_score` keys. -/
theorem c7_counterexample :
    rankStocks defaultEngine [cxScore] sbConfidence 50 none =
      [{ rank := 1, stock_score := cxScore }] := by
  rw [rankStocks_confidence_eq]
  simp [survives, sbConfidence, sbTotalScore, sbWeightedScore, defaultEngine,
    cxScore, qualifiedCount, sortByKeyDesc, insertByKey, assignRanks]

theorem c7_amended_witness :
    (sbWeightedScore = sbTotalScore ∨ sbWeightedScore = sbWeightedScore ∨
      sbWeightedScore = sbQualifiedCount ∨ sbWeightedScore = sbConfidence)
    ∧ (((rankStocks defaultEngine [cxScore] sbWeightedScore 0 none).map
          RankedStock.stock_score).Perm
        ([cxScore].filter (keepSpec sbWeightedScore 0
          ((none : Option ℕ).getD defaultEngine.min_qualified_strategies)))
      ∧ ((rankStocks defaultEngine [cxScore] sbWeightedScore 0 none).map
          RankedStock.stock_score).Pairwise
          (fun a b => pairLe (sortKeySpec sbWeightedScore b)
            (sortKeySpec sbWeightedScore a))
      ∧ (∀ c : ℚ × ℚ,
          ((rankStocks defaultEngine [cxScore] sbWeightedScore 0 none).map
            RankedStock.stock_score).filter
              (fun z => decide (sortKeySpec sbWeightedScore z = c)) =
          ([cxScore].filter (keepSpec sbWeightedScore 0
            ((none : Option ℕ).getD defaultEngine.min_qualified_strategies))).filter
              (fun z => decide (sortKeySpec sbWeightedScore z = c)))
      ∧ (rankStocks defaultEngine [cxScore] sbWeightedScore 0 none).map
          RankedStock.rank =
        List.range' 1
          ([cxScore].filter (keepSpec sbWeightedScore 0
            ((none : Option ℕ).getD defaultEngine.min_qualified_strategies))).length) :=
  ⟨Or.inr (Or.inl rfl),
    c7_amended defaultEngine [cxScore] sbWeightedScore 0 none (Or.inr (Or.inl rfl))⟩

/-! ### Volume/price-pattern theorems -/

theorem not_oLt_iff (a : Option ℚ) (c : ℚ) :
    ((!(oLt a c)) = true) ↔ ∀ x, a = some x → c ≤ x := by
  cases a <;> simp [oLt, not_lt]

theorem not_oGt_iff (a : Option ℚ) (c : ℚ) :
    ((!(oGt a c)) = true) ↔ ∀ x, a = some x → x ≤ c := by
  cases a <;> simp [oGt, not_lt]

theorem lastN_length {α : Type} (n : ℕ) (l : List α) :
    (lastN n l).length = l.length - (l.length - n) := by
  simp [lastN]

theorem sortVRows_length (rows : List VRow) :
    (sortVRows rows).length = rows.length :=
  (List.perm_insertionSort _ rows).length_eq

/-- Claim C5, amended: on an accepted series (length at least `days + 10`;
positive closes and volumes keep the float model exact), the verdict
qualifies iff there are at least 3 up-days and 3 down-days in the analysis
window and none of the three conditions is refuted — every *defined*
average/contrast must satisfy `contrast ≥ contrastMin`, `avg_up ≥ 1`,
`avg_down ≤ 1`, while an undefined (NaN) quantity does not disqualify;
a qualified verdict's score is the sum of the four tiered sub-scores capped
at 100; an insufficient sample yields the disqualified zero-score verdict. -/
theorem c5_amended (days : ℕ) (pMin cMin : ℚ) (code nm : String)
    (data : List VRow)
    (hlen : days + 10 ≤ data.length)
    (_hclose : ∀ r ∈ data, 0 < r.close)
    (_hvol : ∀ r ∈ data, 0 < r.vol) :
    ((vpAnalyze days pMin cMin code nm data).is_qualified = true ↔
      (3 ≤ (vpUps days pMin (lastN (days + 5) (sortVRows data))).length
        ∧ 3 ≤ (vpDowns days pMin (lastN (days + 5) (sortVRows data))).length
        ∧ (∀ c, vpContrast days pMin (lastN (days + 5) (sortVRows data)) = some c →
            cMin ≤ c)
        ∧ (∀ u, vpAvgUp days pMin (lastN (days + 5) (sortVRows data)) = some u →
            1 ≤ u)
        ∧ (∀ v, vpAvgDown days pMin (lastN (days + 5) (sortVRows data)) = some v →
            v ≤ 1)))
    ∧ ((vpAnalyze days pMin cMin code nm data).is_qualified = true →
        (vpAnalyze days pMin cMin code nm data).score =
          min 100
            (tierContrast (vpContrast days pMin (lastN (days + 5) (sortVRows data))) cMin
              + tierUp (vpAvgUp days pMin (lastN (days + 5) (sortVRows data)))
              + tierDown (vpAvgDown days pMin (lastN (days + 5) (sortVRows data)))
              + tierRecent (vpRecentReturn days (lastN (days + 5) (sortVRows data)))))
    ∧ (((vpUps days pMin (lastN (days + 5) (sortVRows data))).length < 3
        ∨ (vpDowns days pMin (lastN (days + 5) (sortVRows data))).length < 3) →
        (vpAnalyze days pMin cMin code nm data).is_qualified = false
        ∧ (vpAnalyze days pMin cMin code nm data).score = 0
        ∧ (vpAnalyze days pMin cMin code nm data).confidence = 0) := by
  have h1 : ¬ data.length < days + 10 := not_lt.mpr hlen
  have h2 : ¬ (lastN (days + 5) (sortVRows data)).length < days := by
    rw [lastN_length, sortVRows_length]
    omega
  have hkey : vpAnalyze days pMin cMin code nm data =
      match analyzeVPP days pMin cMin (lastN (days + 5) (sortVRows data)) with
      | none => mkFailedResult vpDefaultName code nm msgVFailed
      | some r =>
        { stock_code := code, stock_name := nm, strategy_name := vpDefaultName,
          is_qualified := r.is_qualified,
          score := vpScore cMin r,
          confidence := vpConfidence r,
          reason := if r.is_qualified then vpReasonOk else vpReasonNo,
          current_price :=
            ((lastN (days + 5) (sortVRows data)).getLastD default).close,
          trade_date :=
            toString ((lastN (days + 5) (sortVRows data)).getLastD default).trade_date } := by
    unfold vpAnalyze
    rw [if_neg h1, if_neg h2]
  by_cases hc : (vpUps days pMin (lastN (days + 5) (sortVRows data))).length < 3
      ∨ (vpDowns days pMin (lastN (days + 5) (sortVRows data))).length < 3
  · have hnone : analyzeVPP days pMin cMin (lastN (days + 5) (sortVRows data)) = none := by
      unfold analyzeVPP
      rw [if_pos hc]
    rw [hkey, hnone]
    refine ⟨?_, ?_, fun _ => ⟨rfl, rfl, rfl⟩⟩
    · constructor
      · intro hq
        exact absurd hq (by simp [mkFailedResult])
      · rintro ⟨h3u, h3d, -⟩
        omega
    · intro hq
      exact absurd hq (by simp [mkFailedResult])
  · have hsome : analyzeVPP days pMin cMin (lastN (days + 5) (sortVRows data)) =
        some
          { is_qualified :=
              !(oLt (vpContrast days pMin (lastN (days + 5) (sortVRows data))) cMin)
              && (!(oLt (vpAvgUp days pMin (lastN (days + 5) (sortVRows data))) 1)
                && !(oGt (vpAvgDown days pMin (lastN (days + 5) (sortVRows data))) 1)),
            up_days_count := (vpUps days pMin (lastN (days + 5) (sortVRows data))).length,
            down_days_count := (vpDowns days pMin (lastN (days + 5) (sortVRows data))).length,
            avg_vol_ratio_up := vpAvgUp days pMin (lastN (days + 5) (sortVRows data)),
            avg_vol_ratio_down := vpAvgDown days pMin (lastN (days + 5) (sortVRows data)),
            volume_contrast := vpContrast days pMin (lastN (days + 5) (sortVRows data)),
            recent_return_5d := vpRecentReturn days (lastN (days + 5) (sortVRows data)),
            cond_contrast := oGe (vpContrast days pMin (lastN (days + 5) (sortVRows data))) cMin,
            cond_up := oGe (vpAvgUp days pMin (lastN (days + 5) (sortVRows data))) 1,
            cond_down := oLe (vpAvgDown days pMin (lastN (days + 5) (sortVRows data))) 1 } := by
      unfold analyzeVPP
      rw [if_neg hc]
    push_neg at hc
    rw [hkey, hsome]
    dsimp only
    refine ⟨?_, ?_, ?_⟩
    · rw [Bool.and_eq_true, Bool.and_eq_true, not_oLt_iff, not_oLt_iff, not_oGt_iff]
      constructor
      · rintro ⟨hC, hU, hD⟩
        exact ⟨hc.1, hc.2, hC, hU, hD⟩
      · rintro ⟨-, -, hC, hU, hD⟩
        exact ⟨hC, ⟨hU, hD⟩⟩
    · intro hq
      unfold vpScore
      rw [if_neg (by simp [hq])]
    · intro h3
      omega

set_option maxHeartbeats 2000000 in
/-- Claim C5 as stated is false on the code: this series qualifies (three
up-days, three down-days, defined up-average 1) although its down-day average
volume ratio is NaN, so the claimed condition `avg_ratio_down ≤ 1.0` (and the
contrast condition) holds for no real value — the code's strict-comparison
disqualification tests are all false on NaN, leaving `conditions_met` true. -/
theorem c5_counterexample :
    (vpAnalyze 20 (1/100) (6/5) nmA nmB c5data).is_qualified = true
    ∧ vpAvgDown 20 (1/100) (lastN 25 (sortVRows c5data)) = none
    ∧ 3 ≤ (vpDowns 20 (1/100) (lastN 25 (sortVRows c5data))).length := by
  have hs : sortVRows c5data = c5data := by
    unfold sortVRows
    exact List.Sorted.insertionSort_eq (by decide)
  have hrows : vpAnalysisRows 20 (lastN 25 c5data) =
      [(none, none), (some (-(1/2)), none), (some (-(1/2)), none),
        (some (-(1/2)), none), (some 1, some 1), (some 1, some 1),
        (some 1, some 1), (some 0, some 1), (some 0, some 1), (some 0, some 1),
        (some 0, some 1), (some 0, some 1), (some 0, some 1), (some 0, some 1),
        (some 0, some 1), (some 0, some 1), (some 0, some 1), (some 0, some 1),
        (some 0, some 1), (some 0, some 1)] := by
    norm_num [vpAnalysisRows, pctChanges, pcAux, rollMean5, rollMean5Aux,
      volRatios, lastN, c5data]
  have hups : vpUps 20 (1/100) (lastN 25 c5data) =
      [(some 1, some 1), (some 1, some 1), (some 1, some 1)] := by
    norm_num [vpUps, hrows, List.filter_cons, oGt]
  have hdowns : vpDowns 20 (1/100) (lastN 25 c5data) =
      [(some (-(1/2)), none), (some (-(1/2)), none), (some (-(1/2)), none)] := by
    norm_num [vpDowns, hrows, List.filter_cons, oLt]
  have havgdown : vpAvgDown 20 (1/100) (lastN 25 c5data) = none := by
    norm_num [vpAvgDown, hdowns, optMean]
  have havgup : vpAvgUp 20 (1/100) (lastN 25 c5data) = some 1 := by
    norm_num [vpAvgUp, hups, optMean, List.filterMap_cons, id_eq]
  have hcontrast : vpContrast 20 (1/100) (lastN 25 c5data) = none := by
    unfold vpContrast
    rw [havgdown, havgup, if_neg (by simp)]
    rfl
  have hvpp : analyzeVPP 20 (1/100) (6/5) (lastN 25 c5data) =
      some
        { is_qualified := true, up_days_count := 3, down_days_count := 3,
          avg_vol_ratio_up := some 1, avg_vol_ratio_down := none,
          volume_contrast := none,
          recent_return_5d := vpRecentReturn 20 (lastN 25 c5data),
          cond_contrast := false, cond_up := true, cond_down := false } := by
    norm_num [analyzeVPP, hups, hdowns, havgup, havgdown, hcontrast, oLt, oGt,
      oGe, oLe]
  refine ⟨?_, ?_, ?_⟩
  · have h30 : ¬ c5data.length < 20 + 10 := by decide
    have h25 : ¬ (lastN (20 + 5) (sortVRows c5data)).length < 20 := by
      rw [hs]; decide
    unfold vpAnalyze
    rw [if_neg h30, if_neg h25, hs]
    show (match analyzeVPP 20 (1/100) (6/5) (lastN 25 c5data) with
      | none => mkFailedResult vpDefaultName nmA nmB msgVFailed
      | some r =>
        { stock_code := nmA, stock_name := nmB, strategy_name := vpDefaultName,
          is_qualified := r.is_qualified,
          score := vpScore (6/5) r,
          confidence := vpConfidence r,
          reason := if r.is_qualified then vpReasonOk else vpReasonNo,
          current_price := ((lastN 25 c5data).getLastD default).close,
          trade_date :=
            toString ((lastN 25 c5data).getLastD default).trade_date }).is_qualified = true
    rw [hvpp]
  · rw [hs]
    exact havgdown
  · rw [hs, hdowns]
    decide

theorem c5_amended_witness :
    20 + 10 ≤ c5data.length
    ∧ (∀ r ∈ c5data, 0 < r.close)
    ∧ (∀ r ∈ c5data, 0 < r.vol)
    ∧ (((vpAnalyze 20 (1/100) (6/5) nmA nmB c5data).is_qualified = true ↔
        (3 ≤ (vpUps 20 (1/100) (lastN (20 + 5) (sortVRows c5data))).length
          ∧ 3 ≤ (vpDowns 20 (1/100) (lastN (20 + 5) (sortVRows c5data))).length
          ∧ (∀ c, vpContrast 20 (1/100) (lastN (20 + 5) (sortVRows c5data)) = some c →
              (6/5:ℚ) ≤ c)
          ∧ (∀ u, vpAvgUp 20 (1/100) (lastN (20 + 5) (sortVRows c5data)) = some u →
              1 ≤ u)
          ∧ (∀ v, vpAvgDown 20 (1/100) (lastN (20 + 5) (sortVRows c5data)) = some v →
              v ≤ 1)))
      ∧ ((vpAnalyze 20 (1/100) (6/5) nmA nmB c5data).is_qualified = true →
          (vpAnalyze 20 (1/100) (6/5) nmA nmB c5data).score =
            min 100
              (tierContrast (vpContrast 20 (1/100) (lastN (20 + 5) (sortVRows c5data))) (6/5)
                + tierUp (vpAvgUp 20 (1/100) (lastN (20 + 5) (sortVRows c5data)))
                + tierDown (vpAvgDown 20 (1/100) (lastN (20 + 5) (sortVRows c5data)))
                + tierRecent (vpRecentReturn 20 (lastN (20 + 5) (sortVRows c5data)))))
      ∧ (((vpUps 20 (1/100) (lastN (20 + 5) (sortVRows c5data))).length < 3
          ∨ (vpDowns 20 (1/100) (lastN (20 + 5) (sortVRows c5data))).length < 3) →
          (vpAnalyze 20 (1/100) (6/5) nmA nmB c5data).is_qualified = false
          ∧ (vpAnalyze 20 (1/100) (6/5) nmA nmB c5data).score = 0
          ∧ (vpAnalyze 20 (1/100) (6/5) nmA nmB c5data).confidence = 0)) :=
  ⟨by decide, by decide, by decide,
    c5_amended 20 (1/100) (6/5) nmA nmB c5data (by decide) (by decide) (by decide)⟩

end StockSpec
